import Mathlib

/-!
# Reconciliation tasks of the cluster monitoring operator

A shallow embedding of `pkg/tasks/prometheus_user_workload.go` and
`pkg/tasks/thanos_querier.go`.  A task is a straight-line sequence of calls to a
manifest factory and to a resource client; every call is recorded in a trace
together with whether it returned a nil error.
-/

namespace Tasks

/-! ## Errors -/

/-- Go `error` values, represented by their `Error()` text; `none` is `nil`. -/
abbrev Err := String

/-- Go `errors.Wrap(err, message)` of github.com/pkg/errors: a nil error stays nil,
any other error gets the text `message: cause`. -/
def Wrap (err : Option Err) (message : String) : Option Err :=
  match err with
  | none => none
  | some cause => some (message ++ ": " ++ cause)

/-- The `%q` verb of `errors.Wrapf`, for names that hold no character Go would
escape: the name between double quotes. -/
def quote (name : String) : String :=
  String.singleton (Char.ofNat 34) ++ name ++ String.singleton (Char.ofNat 34)

/-- What a Go function of result type `error` can do: return (nil or an error) or
abort with a run-time panic. -/
inductive Outcome where
  | returned (err : Option Err)
  | panicked
  deriving DecidableEq, Repr

/-! ## Resources, factory and client -/

/-- A manifest built by the factory.  The tasks never look inside an object except
for `Name`; `Spec` stands for the rest of the manifest. -/
structure Obj where
  Namespace : String
  Name : String
  Spec : String
  deriving DecidableEq, Repr, Inhabited

/-- The methods of `manifests.Factory` the two tasks call. -/
inductive FactoryFn where
  | PrometheusUserWorkloadServingCertsCABundle
  | PrometheusUserWorkloadServiceAccount
  | PrometheusUserWorkloadClusterRole
  | PrometheusUserWorkloadClusterRoleBinding
  | PrometheusUserWorkloadRoleConfig
  | PrometheusUserWorkloadRoleList
  | PrometheusUserWorkloadRoleBindingList
  | PrometheusUserWorkloadRoleBindingConfig
  | PrometheusUserWorkloadService
  | PrometheusUserWorkload
  | PrometheusUserWorkloadPrometheusServiceMonitor
  | ThanosQuerierService
  | ThanosQuerierRoute
  | ThanosQuerierOauthCookieSecret
  | ThanosQuerierHtpasswdSecret
  | ThanosQuerierRBACProxySecret
  | ThanosQuerierServiceAccount
  | ThanosQuerierClusterRole
  | ThanosQuerierClusterRoleBinding
  | ThanosQuerierDeployment
  deriving DecidableEq, Repr

/-- The factory: the result of each builder method.  Every method is called at
most once in a run, so a record of results covers every behaviour of a run. -/
structure Factory where
  PrometheusUserWorkloadServingCertsCABundle : Except Err Obj
  PrometheusUserWorkloadServiceAccount : Except Err Obj
  PrometheusUserWorkloadClusterRole : Except Err Obj
  PrometheusUserWorkloadClusterRoleBinding : Except Err Obj
  PrometheusUserWorkloadRoleConfig : Except Err Obj
  PrometheusUserWorkloadRoleList : Except Err (List Obj)
  PrometheusUserWorkloadRoleBindingList : Except Err (List Obj)
  PrometheusUserWorkloadRoleBindingConfig : Except Err Obj
  PrometheusUserWorkloadService : Except Err Obj
  PrometheusUserWorkload : Except Err Obj
  PrometheusUserWorkloadPrometheusServiceMonitor : Except Err Obj
  ThanosQuerierService : Except Err Obj
  ThanosQuerierRoute : Except Err Obj
  ThanosQuerierOauthCookieSecret : Except Err Obj
  ThanosQuerierHtpasswdSecret : String → Except Err Obj
  ThanosQuerierRBACProxySecret : Except Err Obj
  ThanosQuerierServiceAccount : Except Err Obj
  ThanosQuerierClusterRole : Except Err Obj
  ThanosQuerierClusterRoleBinding : Except Err Obj
  ThanosQuerierDeployment : Except Err Obj

/-- The methods of `client.Client` that take one object and return an error. -/
inductive Verb where
  | CreateIfNotExistConfigMap
  | CreateOrUpdateServiceAccount
  | CreateOrUpdateClusterRole
  | CreateOrUpdateClusterRoleBinding
  | CreateOrUpdateRole
  | CreateOrUpdateRoleBinding
  | CreateOrUpdateService
  | CreateOrUpdatePrometheus
  | WaitForPrometheus
  | CreateOrUpdateServiceMonitor
  | DeleteServiceMonitor
  | DeletePrometheus
  | DeleteService
  | DeleteRoleBinding
  | DeleteRole
  | DeleteClusterRoleBinding
  | DeleteClusterRole
  | DeleteServiceAccount
  | DeleteConfigMap
  | CreateRouteIfNotExists
  | WaitForRouteReady
  | CreateIfNotExistSecret
  | CreateOrUpdateDeployment
  deriving DecidableEq, Repr

/-- A `v1.Secret` as far as the tasks read it: the `Data` map; an absent key is
`none`. -/
structure Secret where
  Data : String → Option String

/-- The resource client over a remote store of type `σ`.  Each call may change the
store and returns nil or an error, in any way whatsoever. `SecretsGet ns name` is
`KubernetesInterface().CoreV1().Secrets(ns).Get(name, ...)`. -/
structure Client (σ : Type) where
  call : Verb → Obj → σ → Option Err × σ
  Namespace : String
  SecretsGet : String → String → σ → Except Err Secret × σ

/-- Modelled from the spec: `manifests.UserWorkloadConfig` is declared outside the
two task files; the spec calls it the EnablementFlag, a boolean read by
`IsEnabled()`. -/
structure UserWorkloadConfig where
  IsEnabled : Bool

/-- Modelled from the spec: `manifests.GrafanaDatasource` is declared outside the
two task files; of the shared datasource entry the task reads the credential
`BasicAuthPassword`. -/
structure GrafanaDatasource where
  BasicAuthPassword : String
  deriving DecidableEq, Repr

/-- Modelled from the spec: `manifests.GrafanaDatasources` is declared outside the
two task files; the task reads the list `Datasources` of the shared datasource
secret. -/
structure GrafanaDatasources where
  Datasources : List GrafanaDatasource
  deriving DecidableEq, Repr

/-! ## Traces -/

/-- A call a task makes. -/
inductive Call where
  | IsEnabled
  | factory (f : FactoryFn)
  | client (v : Verb) (o : Obj)
  | SecretsGet (ns name : String)
  deriving DecidableEq, Repr

/-- A call without its arguments. -/
inductive CallKind where
  | IsEnabled
  | factory (f : FactoryFn)
  | client (v : Verb)
  | SecretsGet
  deriving DecidableEq, Repr

/-- The kind of a call. -/
def Call.kind : Call → CallKind
  | .IsEnabled => .IsEnabled
  | .factory f => .factory f
  | .client v _ => .client v
  | .SecretsGet _ _ => .SecretsGet

/-- One entry of a trace: the call, and whether it returned a nil error. -/
structure Event where
  call : Call
  ok : Bool
  deriving DecidableEq, Repr

/-- The result of running a task from a store: the value returned, the calls
made in order, and the store afterwards. -/
structure Out (σ α : Type) where
  val : α
  trace : List Event
  state : σ

/-- A computation over the remote store that records its calls. -/
def M (σ α : Type) : Type := σ → Out σ α

instance : Monad (M σ) where
  pure a := fun s => ⟨a, [], s⟩
  bind m k := fun s =>
    ⟨(k (m s).val (m s).state).val,
     (m s).trace ++ (k (m s).val (m s).state).trace,
     (k (m s).val (m s).state).state⟩

/-- A call of a factory method whose result is `r`. -/
def factoryCall (f : FactoryFn) (r : Except Err α) : M σ (Except Err α) :=
  fun s => ⟨r, [⟨.factory f, r.toBool⟩], s⟩

/-- A call `c.v(o)` of the client. -/
def clientCall (c : Client σ) (v : Verb) (o : Obj) : M σ (Option Err) :=
  fun s => ⟨(c.call v o s).1, [⟨.client v o, (c.call v o s).1.isNone⟩], (c.call v o s).2⟩

/-- The read `c.CoreV1().Secrets(ns).Get(name, metav1.GetOptions{})`. -/
def secretsGet (c : Client σ) (ns name : String) : M σ (Except Err Secret) :=
  fun s => ⟨(c.SecretsGet ns name s).1,
    [⟨.SecretsGet ns name, (c.SecretsGet ns name s).1.toBool⟩], (c.SecretsGet ns name s).2⟩

/-- The read `userWorkloadConfig.IsEnabled()`. -/
def isEnabled (cfg : UserWorkloadConfig) : M σ Bool :=
  fun s => ⟨cfg.IsEnabled, [⟨.IsEnabled, true⟩], s⟩

/-! ## The user workload task -/

/-- The Go struct `PrometheusUserWorkloadTask`. -/
structure PrometheusUserWorkloadTask (σ : Type) where
  client : Client σ
  factory : Factory
  userWorkloadConfig : UserWorkloadConfig

/-- The constructor `NewPrometheusUserWorkloadTask`, lines 31-37. -/
def NewPrometheusUserWorkloadTask {σ : Type} (client : Client σ) (factory : Factory)
    (userWorkloadConfig : UserWorkloadConfig) : PrometheusUserWorkloadTask σ :=
  { client := client, factory := factory, userWorkloadConfig := userWorkloadConfig }

namespace PrometheusUserWorkloadTask

/-- The loop `for _, r := range rl.Items` of `create`: the first failing
`CreateOrUpdateRole` returns from `create` with the wrapped error. -/
def createRoles (t : PrometheusUserWorkloadTask σ) : List Obj → M σ (Option Err)
  | [] => pure none
  | r :: rest => do
    let err ← clientCall t.client .CreateOrUpdateRole r
    if err ≠ none then
      return Wrap err ("reconciling UserWorkload Prometheus Role " ++ quote r.Name ++ " failed")
    else
    createRoles t rest

/-- The loop `for _, rb := range rbl.Items` of `create`. -/
def createRoleBindings (t : PrometheusUserWorkloadTask σ) : List Obj → M σ (Option Err)
  | [] => pure none
  | rb :: rest => do
    let err ← clientCall t.client .CreateOrUpdateRoleBinding rb
    if err ≠ none then
      return Wrap err
        ("reconciling UserWorkload Prometheus RoleBinding " ++ quote rb.Name ++ " failed")
    else
    createRoleBindings t rest

/-- The method `create`, lines 47-167. -/
def create (t : PrometheusUserWorkloadTask σ) : M σ (Option Err) := do
  let r ← factoryCall .PrometheusUserWorkloadServingCertsCABundle
    t.factory.PrometheusUserWorkloadServingCertsCABundle
  match r with
  | .error err =>
    return Wrap (some err) "initializing UserWorkload serving certs CA Bundle ConfigMap failed"
  | .ok cacm =>
  let err ← clientCall t.client .CreateIfNotExistConfigMap cacm
  if err ≠ none then
    return Wrap err "creating UserWorkload serving certs CA Bundle ConfigMap failed"
  else
  let r ← factoryCall .PrometheusUserWorkloadServiceAccount
    t.factory.PrometheusUserWorkloadServiceAccount
  match r with
  | .error err =>
    return Wrap (some err) "initializing UserWorkload Prometheus ServiceAccount failed"
  | .ok sa =>
  let err ← clientCall t.client .CreateOrUpdateServiceAccount sa
  if err ≠ none then
    return Wrap err "reconciling UserWorkload Prometheus ServiceAccount failed"
  else
  let r ← factoryCall .PrometheusUserWorkloadClusterRole
    t.factory.PrometheusUserWorkloadClusterRole
  match r with
  | .error err =>
    return Wrap (some err) "initializing UserWorkload Prometheus ClusterRole failed"
  | .ok cr =>
  let err ← clientCall t.client .CreateOrUpdateClusterRole cr
  if err ≠ none then
    return Wrap err "reconciling UserWorkload Prometheus ClusterRole failed"
  else
  let r ← factoryCall .PrometheusUserWorkloadClusterRoleBinding
    t.factory.PrometheusUserWorkloadClusterRoleBinding
  match r with
  | .error err =>
    return Wrap (some err) "initializing UserWorkload Prometheus ClusterRoleBinding failed"
  | .ok crb =>
  let err ← clientCall t.client .CreateOrUpdateClusterRoleBinding crb
  if err ≠ none then
    return Wrap err "reconciling UserWorkload Prometheus ClusterRoleBinding failed"
  else
  let r ← factoryCall .PrometheusUserWorkloadRoleConfig
    t.factory.PrometheusUserWorkloadRoleConfig
  match r with
  | .error err =>
    return Wrap (some err) "initializing UserWorkload Prometheus Role config failed"
  | .ok rc =>
  let err ← clientCall t.client .CreateOrUpdateRole rc
  if err ≠ none then
    return Wrap err "reconciling UserWorkload Prometheus Role config failed"
  else
  let r ← factoryCall .PrometheusUserWorkloadRoleList
    t.factory.PrometheusUserWorkloadRoleList
  match r with
  | .error err =>
    return Wrap (some err) "initializing UserWorkload Prometheus Role failed"
  | .ok rl =>
  let err ← createRoles t rl
  if err ≠ none then
    return err
  else
  let r ← factoryCall .PrometheusUserWorkloadRoleBindingList
    t.factory.PrometheusUserWorkloadRoleBindingList
  match r with
  | .error err =>
    return Wrap (some err) "initializing UserWorkload Prometheus RoleBinding failed"
  | .ok rbl =>
  let err ← createRoleBindings t rbl
  if err ≠ none then
    return err
  else
  let r ← factoryCall .PrometheusUserWorkloadRoleBindingConfig
    t.factory.PrometheusUserWorkloadRoleBindingConfig
  match r with
  | .error err =>
    return Wrap (some err) "initializing UserWorkload Prometheus config RoleBinding failed"
  | .ok rbc =>
  let err ← clientCall t.client .CreateOrUpdateRoleBinding rbc
  if err ≠ none then
    return Wrap err "reconciling UserWorkload Prometheus config RoleBinding failed"
  else
  let r ← factoryCall .PrometheusUserWorkloadService
    t.factory.PrometheusUserWorkloadService
  match r with
  | .error err =>
    return Wrap (some err) "initializing UserWorkload Prometheus Service failed"
  | .ok svc =>
  let err ← clientCall t.client .CreateOrUpdateService svc
  if err ≠ none then
    return Wrap err "reconciling UserWorkload Prometheus Service failed"
  else
  let r ← factoryCall .PrometheusUserWorkload t.factory.PrometheusUserWorkload
  match r with
  | .error err =>
    return Wrap (some err) "initializing UserWorkload Prometheus object failed"
  | .ok p =>
  let err ← clientCall t.client .CreateOrUpdatePrometheus p
  if err ≠ none then
    return Wrap err "reconciling UserWorkload Prometheus object failed"
  else
  let err ← clientCall t.client .WaitForPrometheus p
  if err ≠ none then
    return Wrap err "waiting for UserWorkload Prometheus object changes failed"
  else
  let r ← factoryCall .PrometheusUserWorkloadPrometheusServiceMonitor
    t.factory.PrometheusUserWorkloadPrometheusServiceMonitor
  match r with
  | .error err =>
    return Wrap (some err)
      "initializing UserWorkload Prometheus Prometheus ServiceMonitor failed"
  | .ok smp =>
  let err ← clientCall t.client .CreateOrUpdateServiceMonitor smp
  return Wrap err "reconciling UserWorkload Prometheus Prometheus ServiceMonitor failed"

/-- The loop `for _, rb := range rbl.Items` of `destroy`. -/
def deleteRoleBindings (t : PrometheusUserWorkloadTask σ) : List Obj → M σ (Option Err)
  | [] => pure none
  | rb :: rest => do
    let err ← clientCall t.client .DeleteRoleBinding rb
    if err ≠ none then
      return Wrap err
        ("deleting UserWorkload Prometheus RoleBinding " ++ quote rb.Name ++ " failed")
    else
    deleteRoleBindings t rest

/-- The loop `for _, r := range rl.Items` of `destroy`. -/
def deleteRoles (t : PrometheusUserWorkloadTask σ) : List Obj → M σ (Option Err)
  | [] => pure none
  | r :: rest => do
    let err ← clientCall t.client .DeleteRole r
    if err ≠ none then
      return Wrap err ("deleting UserWorkload Prometheus Role " ++ quote r.Name ++ " failed")
    else
    deleteRoles t rest

/-- The method `destroy`, lines 169-281. -/
def destroy (t : PrometheusUserWorkloadTask σ) : M σ (Option Err) := do
  let r ← factoryCall .PrometheusUserWorkloadPrometheusServiceMonitor
    t.factory.PrometheusUserWorkloadPrometheusServiceMonitor
  match r with
  | .error err =>
    return Wrap (some err)
      "initializing UserWorkload Prometheus Prometheus ServiceMonitor failed"
  | .ok smp =>
  let err ← clientCall t.client .DeleteServiceMonitor smp
  if err ≠ none then
    return Wrap err "deleting UserWorkload Prometheus Prometheus ServiceMonitor failed"
  else
  let r ← factoryCall .PrometheusUserWorkload t.factory.PrometheusUserWorkload
  match r with
  | .error err =>
    return Wrap (some err) "initializing UserWorkload Prometheus object failed"
  | .ok p =>
  let err ← clientCall t.client .DeletePrometheus p
  if err ≠ none then
    return Wrap err "deleting UserWorkload Prometheus object failed"
  else
  let r ← factoryCall .PrometheusUserWorkloadService
    t.factory.PrometheusUserWorkloadService
  match r with
  | .error err =>
    return Wrap (some err) "initializing UserWorkload Prometheus Service failed"
  | .ok svc =>
  let err ← clientCall t.client .DeleteService svc
  if err ≠ none then
    return Wrap err "deleting UserWorkload Prometheus Service failed"
  else
  let r ← factoryCall .PrometheusUserWorkloadRoleBindingConfig
    t.factory.PrometheusUserWorkloadRoleBindingConfig
  match r with
  | .error err =>
    return Wrap (some err) "initializing UserWorkload Prometheus config RoleBinding failed"
  | .ok rbc =>
  let err ← clientCall t.client .DeleteRoleBinding rbc
  if err ≠ none then
    return Wrap err "deleting UserWorkload Prometheus Service failed"
  else
  let r ← factoryCall .PrometheusUserWorkloadRoleBindingList
    t.factory.PrometheusUserWorkloadRoleBindingList
  match r with
  | .error err =>
    return Wrap (some err) "initializing UserWorkload Prometheus RoleBinding failed"
  | .ok rbl =>
  let err ← deleteRoleBindings t rbl
  if err ≠ none then
    return err
  else
  let r ← factoryCall .PrometheusUserWorkloadRoleList
    t.factory.PrometheusUserWorkloadRoleList
  match r with
  | .error err =>
    return Wrap (some err) "initializing UserWorkload Prometheus Role failed"
  | .ok rl =>
  let err ← deleteRoles t rl
  if err ≠ none then
    return err
  else
  let r ← factoryCall .PrometheusUserWorkloadRoleConfig
    t.factory.PrometheusUserWorkloadRoleConfig
  match r with
  | .error err =>
    return Wrap (some err) "initializing UserWorkload Prometheus Role config failed"
  | .ok rc =>
  let err ← clientCall t.client .DeleteRole rc
  if err ≠ none then
    return Wrap err "deleting UserWorkload Prometheus Role config failed"
  else
  let r ← factoryCall .PrometheusUserWorkloadClusterRoleBinding
    t.factory.PrometheusUserWorkloadClusterRoleBinding
  match r with
  | .error err =>
    return Wrap (some err) "initializing UserWorkload Prometheus ClusterRoleBinding failed"
  | .ok crb =>
  let err ← clientCall t.client .DeleteClusterRoleBinding crb
  if err ≠ none then
    return Wrap err "deleting UserWorkload Prometheus ClusterRoleBinding failed"
  else
  let r ← factoryCall .PrometheusUserWorkloadClusterRole
    t.factory.PrometheusUserWorkloadClusterRole
  match r with
  | .error err =>
    return Wrap (some err) "initializing UserWorkload Prometheus ClusterRole failed"
  | .ok cr =>
  let err ← clientCall t.client .DeleteClusterRole cr
  if err ≠ none then
    return Wrap err "deleting UserWorkload Prometheus ClusterRole failed"
  else
  let r ← factoryCall .PrometheusUserWorkloadServiceAccount
    t.factory.PrometheusUserWorkloadServiceAccount
  match r with
  | .error err =>
    return Wrap (some err) "initializing UserWorkload Prometheus ServiceAccount failed"
  | .ok sa =>
  let err ← clientCall t.client .DeleteServiceAccount sa
  if err ≠ none then
    return Wrap err "deleting UserWorkload Prometheus ServiceAccount failed"
  else
  let r ← factoryCall .PrometheusUserWorkloadServingCertsCABundle
    t.factory.PrometheusUserWorkloadServingCertsCABundle
  match r with
  | .error err =>
    return Wrap (some err) "initializing UserWorkload serving certs CA Bundle ConfigMap failed"
  | .ok cacm =>
  let err ← clientCall t.client .DeleteConfigMap cacm
  return Wrap err "deleting UserWorkload serving certs CA Bundle ConfigMap failed"

/-- The method `Run`, lines 39-45. -/
def Run (t : PrometheusUserWorkloadTask σ) : M σ (Option Err) := do
  let enabled ← isEnabled t.userWorkloadConfig
  if enabled then
    create t
  else
    destroy t

end PrometheusUserWorkloadTask

/-! ## The Thanos querier task -/

/-- The Go struct `ThanosQuerierTask`. -/
structure ThanosQuerierTask (σ : Type) where
  client : Client σ
  factory : Factory

/-- The constructor `NewThanosQuerierTask`, lines 31-36. -/
def NewThanosQuerierTask {σ : Type} (client : Client σ) (factory : Factory) :
    ThanosQuerierTask σ :=
  { client := client, factory := factory }

namespace ThanosQuerierTask

/-- The method `Run`, lines 38-143.  `unmarshal data` stands for
`json.Unmarshal(data, d)` on a fresh `d`: it gives `d` after the call and the
error returned.  That error is assigned on line 80 and overwritten on line 82
without being read.  `d.Datasources[0]` on an empty list is a Go run-time panic. -/
def Run (unmarshal : String → GrafanaDatasources × Option Err) (t : ThanosQuerierTask σ) :
    M σ Outcome := do
  let r ← factoryCall .ThanosQuerierService t.factory.ThanosQuerierService
  match r with
  | .error err =>
    return .returned (Wrap (some err) "initializing Thanos Querier Service failed")
  | .ok svc =>
  let err ← clientCall t.client .CreateOrUpdateService svc
  if err ≠ none then
    return .returned (Wrap err "reconciling Thanos Querier Service failed")
  else
  let r ← factoryCall .ThanosQuerierRoute t.factory.ThanosQuerierRoute
  match r with
  | .error err =>
    return .returned (Wrap (some err) "initializing Thanos Querier Route failed")
  | .ok r =>
  let err ← clientCall t.client .CreateRouteIfNotExists r
  if err ≠ none then
    return .returned (Wrap err "creating Thanos Querier Route failed")
  else
  let err ← clientCall t.client .WaitForRouteReady r
  if err ≠ none then
    return .returned (Wrap err "waiting for Thanos Querier Route to become ready failed")
  else
  let r ← factoryCall .ThanosQuerierOauthCookieSecret t.factory.ThanosQuerierOauthCookieSecret
  match r with
  | .error err =>
    return .returned (Wrap (some err) "initializing Thanos Querier OAuth Cookie Secret failed")
  | .ok s =>
  let err ← clientCall t.client .CreateIfNotExistSecret s
  if err ≠ none then
    return .returned (Wrap err "creating Thanos Querier OAuth Cookie Secret failed")
  else
  let r ← secretsGet t.client t.client.Namespace "grafana-datasources"
  match r with
  | .error err =>
    return .returned (Wrap (some err) "failed to retrieve Grafana datasources config")
  | .ok cm =>
  let d := (unmarshal ((cm.Data "prometheus.yaml").getD "")).1
  match d.Datasources with
  | [] => return .panicked
  | ds0 :: _ =>
  let r ← factoryCall .ThanosQuerierHtpasswdSecret
    (t.factory.ThanosQuerierHtpasswdSecret ds0.BasicAuthPassword)
  match r with
  | .error err =>
    return .returned (Wrap (some err) "initializing Thanos Querier htpasswd Secret failed")
  | .ok hs =>
  let err ← clientCall t.client .CreateIfNotExistSecret hs
  if err ≠ none then
    return .returned (Wrap err "creating Thanos Querier htpasswd Secret failed")
  else
  let r ← factoryCall .ThanosQuerierRBACProxySecret t.factory.ThanosQuerierRBACProxySecret
  match r with
  | .error err =>
    return .returned (Wrap (some err) "initializing Thanos Querier RBAC proxy Secret failed")
  | .ok rs =>
  let err ← clientCall t.client .CreateIfNotExistSecret rs
  if err ≠ none then
    return .returned (Wrap err "creating Thanos Querier RBAC proxy Secret failed")
  else
  let r ← factoryCall .ThanosQuerierServiceAccount t.factory.ThanosQuerierServiceAccount
  match r with
  | .error err =>
    return .returned (Wrap (some err) "initializing Thanos Querier ServiceAccount failed")
  | .ok sa =>
  let err ← clientCall t.client .CreateOrUpdateServiceAccount sa
  if err ≠ none then
    return .returned (Wrap err "reconciling Thanos Querier ServiceAccount failed")
  else
  let r ← factoryCall .ThanosQuerierClusterRole t.factory.ThanosQuerierClusterRole
  match r with
  | .error err =>
    return .returned (Wrap (some err) "initializing Thanos Querier ClusterRole failed")
  | .ok cr =>
  let err ← clientCall t.client .CreateOrUpdateClusterRole cr
  if err ≠ none then
    return .returned (Wrap err "reconciling Thanos Querier ClusterRole failed")
  else
  let r ← factoryCall .ThanosQuerierClusterRoleBinding
    t.factory.ThanosQuerierClusterRoleBinding
  match r with
  | .error err =>
    return .returned (Wrap (some err) "initializing Thanos Querier ClusterRoleBinding failed")
  | .ok crb =>
  let err ← clientCall t.client .CreateOrUpdateClusterRoleBinding crb
  if err ≠ none then
    return .returned (Wrap err "reconciling Thanos Querier ClusterRoleBinding failed")
  else
  let r ← factoryCall .ThanosQuerierDeployment t.factory.ThanosQuerierDeployment
  match r with
  | .error err =>
    return .returned (Wrap (some err) "initializing Thanos Querier Deployment failed")
  | .ok dep =>
  let err ← clientCall t.client .CreateOrUpdateDeployment dep
  if err ≠ none then
    return .returned (Wrap err "reconciling Thanos Querier Deployment failed")
  else
  return .returned none

end ThanosQuerierTask

/-! ## Traces against plans

A plan is the list of calls a task makes when nothing fails.  A run conforms to a
plan when its trace is a beginning of the plan in which only the last call may
have failed, and the value returned says whether a call failed. -/

/-- The store after the call `call` made through client `c` from store `s`. -/
def Client.step {σ : Type} (c : Client σ) (s : σ) : Call → σ
  | .client v o => (c.call v o s).2
  | .SecretsGet ns name => (c.SecretsGet ns name s).2
  | _ => s

/-- The store after the calls of a trace, made in order through client `c`. -/
def Client.replay {σ : Type} (c : Client σ) (tr : List Event) (s : σ) : σ :=
  tr.foldl (fun s e => c.step s e.call) s

/-- The trace `tr` with outcome `out` is a run of `plan`, calls being compared
through `abs`. -/
structure Good {κ : Type} (abs : Call → κ) (tr : List Event) (out : Outcome)
    (plan : List κ) : Prop where
  pre : tr.map (fun e => abs e.call) <+: plan
  init_ok : ∀ e ∈ tr.dropLast, e.ok = true
  failed : (∃ e ∈ tr, e.ok = false) → ∃ err, out = .returned (some err)
  complete : out = .returned none → tr.map (fun e => abs e.call) = plan
  clean : (∀ e ∈ tr, e.ok = true) → out = .returned none ∨ out = .panicked

/-- Every run of `m` is a run of `plan` whose store changes only through the calls
of its trace; `view` turns the value returned into an outcome. -/
def Conforms {σ α κ : Type} (c : Client σ) (view : α → Outcome) (abs : Call → κ) (m : M σ α)
    (plan : List κ) : Prop :=
  ∀ s, Good abs (m s).trace (view (m s).val) plan ∧ (m s).state = c.replay (m s).trace s

/-- The continuation `k`, given `b`, returns an error at once. -/
def FailsWith {σ α β : Type} (view : α → Outcome) (k : β → M σ α) (b : β) : Prop :=
  ∀ s, (k b s).trace = [] ∧ (k b s).state = s ∧ ∃ err, view (k b s).val = .returned (some err)

/-- The value a factory method built; a default when it failed. -/
def built {α : Type} [Inhabited α] : Except Err α → α
  | .ok x => x
  | .error _ => default

/-- The calls of `create` when nothing fails. -/
def createPlan (F : Factory) : List Call :=
  .factory .PrometheusUserWorkloadServingCertsCABundle ::
  .client .CreateIfNotExistConfigMap (built F.PrometheusUserWorkloadServingCertsCABundle) ::
  .factory .PrometheusUserWorkloadServiceAccount ::
  .client .CreateOrUpdateServiceAccount (built F.PrometheusUserWorkloadServiceAccount) ::
  .factory .PrometheusUserWorkloadClusterRole ::
  .client .CreateOrUpdateClusterRole (built F.PrometheusUserWorkloadClusterRole) ::
  .factory .PrometheusUserWorkloadClusterRoleBinding ::
  .client .CreateOrUpdateClusterRoleBinding (built F.PrometheusUserWorkloadClusterRoleBinding) ::
  .factory .PrometheusUserWorkloadRoleConfig ::
  .client .CreateOrUpdateRole (built F.PrometheusUserWorkloadRoleConfig) ::
  .factory .PrometheusUserWorkloadRoleList ::
  ((built F.PrometheusUserWorkloadRoleList).map (Call.client .CreateOrUpdateRole) ++
  (.factory .PrometheusUserWorkloadRoleBindingList ::
  ((built F.PrometheusUserWorkloadRoleBindingList).map (Call.client .CreateOrUpdateRoleBinding) ++
  [.factory .PrometheusUserWorkloadRoleBindingConfig,
   .client .CreateOrUpdateRoleBinding (built F.PrometheusUserWorkloadRoleBindingConfig),
   .factory .PrometheusUserWorkloadService,
   .client .CreateOrUpdateService (built F.PrometheusUserWorkloadService),
   .factory .PrometheusUserWorkload,
   .client .CreateOrUpdatePrometheus (built F.PrometheusUserWorkload),
   .client .WaitForPrometheus (built F.PrometheusUserWorkload),
   .factory .PrometheusUserWorkloadPrometheusServiceMonitor,
   .client .CreateOrUpdateServiceMonitor
     (built F.PrometheusUserWorkloadPrometheusServiceMonitor)])))

/-- The calls of `destroy` when nothing fails. -/
def destroyPlan (F : Factory) : List Call :=
  .factory .PrometheusUserWorkloadPrometheusServiceMonitor ::
  .client .DeleteServiceMonitor (built F.PrometheusUserWorkloadPrometheusServiceMonitor) ::
  .factory .PrometheusUserWorkload ::
  .client .DeletePrometheus (built F.PrometheusUserWorkload) ::
  .factory .PrometheusUserWorkloadService ::
  .client .DeleteService (built F.PrometheusUserWorkloadService) ::
  .factory .PrometheusUserWorkloadRoleBindingConfig ::
  .client .DeleteRoleBinding (built F.PrometheusUserWorkloadRoleBindingConfig) ::
  .factory .PrometheusUserWorkloadRoleBindingList ::
  ((built F.PrometheusUserWorkloadRoleBindingList).map (Call.client .DeleteRoleBinding) ++
  (.factory .PrometheusUserWorkloadRoleList ::
  ((built F.PrometheusUserWorkloadRoleList).map (Call.client .DeleteRole) ++
  [.factory .PrometheusUserWorkloadRoleConfig,
   .client .DeleteRole (built F.PrometheusUserWorkloadRoleConfig),
   .factory .PrometheusUserWorkloadClusterRoleBinding,
   .client .DeleteClusterRoleBinding (built F.PrometheusUserWorkloadClusterRoleBinding),
   .factory .PrometheusUserWorkloadClusterRole,
   .client .DeleteClusterRole (built F.PrometheusUserWorkloadClusterRole),
   .factory .PrometheusUserWorkloadServiceAccount,
   .client .DeleteServiceAccount (built F.PrometheusUserWorkloadServiceAccount),
   .factory .PrometheusUserWorkloadServingCertsCABundle,
   .client .DeleteConfigMap (built F.PrometheusUserWorkloadServingCertsCABundle)])))

/-- The calls of `PrometheusUserWorkloadTask.Run` when nothing fails. -/
def runPlan (enabled : Bool) (F : Factory) : List Call :=
  .IsEnabled :: (if enabled then createPlan F else destroyPlan F)

/-- The secret without any key. -/
instance : Inhabited Secret := ⟨⟨fun _ => none⟩⟩

/-- The password `d.Datasources[0].BasicAuthPassword` that `Run` reads out of the
secret `sec` through the decoder; the empty text when the list is empty. -/
def firstPassword (unmarshal : String → GrafanaDatasources × Option Err) (sec : Secret) :
    String :=
  match (unmarshal ((sec.Data "prometheus.yaml").getD "")).1.Datasources with
  | [] => ""
  | ds0 :: _ => ds0.BasicAuthPassword

/-- The calls of `ThanosQuerierTask.Run` when nothing fails, with their objects;
`ns` is the namespace of the client and `hs` the htpasswd secret built from the
password read. -/
def thanosCalls (F : Factory) (ns : String) (hs : Obj) : List Call :=
  [.factory .ThanosQuerierService,
   .client .CreateOrUpdateService (built F.ThanosQuerierService),
   .factory .ThanosQuerierRoute,
   .client .CreateRouteIfNotExists (built F.ThanosQuerierRoute),
   .client .WaitForRouteReady (built F.ThanosQuerierRoute),
   .factory .ThanosQuerierOauthCookieSecret,
   .client .CreateIfNotExistSecret (built F.ThanosQuerierOauthCookieSecret),
   .SecretsGet ns "grafana-datasources",
   .factory .ThanosQuerierHtpasswdSecret,
   .client .CreateIfNotExistSecret hs,
   .factory .ThanosQuerierRBACProxySecret,
   .client .CreateIfNotExistSecret (built F.ThanosQuerierRBACProxySecret),
   .factory .ThanosQuerierServiceAccount,
   .client .CreateOrUpdateServiceAccount (built F.ThanosQuerierServiceAccount),
   .factory .ThanosQuerierClusterRole,
   .client .CreateOrUpdateClusterRole (built F.ThanosQuerierClusterRole),
   .factory .ThanosQuerierClusterRoleBinding,
   .client .CreateOrUpdateClusterRoleBinding (built F.ThanosQuerierClusterRoleBinding),
   .factory .ThanosQuerierDeployment,
   .client .CreateOrUpdateDeployment (built F.ThanosQuerierDeployment)]

/-- The calls of `ThanosQuerierTask.Run` when nothing fails and the secret read
returns `sec`: the htpasswd secret is the one the factory builds from the first
password decoded from `sec`. -/
def thanosCallsOf (unmarshal : String → GrafanaDatasources × Option Err) (F : Factory)
    (ns : String) (sec : Secret) : List Call :=
  thanosCalls F ns (built (F.ThanosQuerierHtpasswdSecret (firstPassword unmarshal sec)))

/-- The secret that the first secret read of a trace returned, the calls of the
trace being made in order through client `c` from store `s`; `none` when the trace
has no secret read or the read failed. -/
def Client.secretRead {σ : Type} (c : Client σ) : List Event → σ → Option Secret
  | [], _ => none
  | e :: tr, s =>
    match e.call with
    | .SecretsGet ns name => (c.SecretsGet ns name s).1.toOption
    | .IsEnabled => c.secretRead tr s
    | .factory _ => c.secretRead tr s
    | .client v o => c.secretRead tr (c.call v o s).2

/-- Every run of `m` is a run of one of the plans `plan p`, where `p` is the secret
the run read if it read one, and its store changes only through the calls of its
trace. -/
def ConformsP {σ α κ : Type} (c : Client σ) (view : α → Outcome) (abs : Call → κ)
    (m : M σ α) (plan : Secret → List κ) : Prop :=
  ∀ s, ∃ p, Good abs (m s).trace (view (m s).val) (plan p) ∧
    (m s).state = c.replay (m s).trace s ∧
    ∀ x, c.secretRead (m s).trace s = some x → x = p

/-- The kinds of the calls of `ThanosQuerierTask.Run` when nothing fails. -/
def thanosPlan : List CallKind :=
  [.factory .ThanosQuerierService,
   .client .CreateOrUpdateService,
   .factory .ThanosQuerierRoute,
   .client .CreateRouteIfNotExists,
   .client .WaitForRouteReady,
   .factory .ThanosQuerierOauthCookieSecret,
   .client .CreateIfNotExistSecret,
   .SecretsGet,
   .factory .ThanosQuerierHtpasswdSecret,
   .client .CreateIfNotExistSecret,
   .factory .ThanosQuerierRBACProxySecret,
   .client .CreateIfNotExistSecret,
   .factory .ThanosQuerierServiceAccount,
   .client .CreateOrUpdateServiceAccount,
   .factory .ThanosQuerierClusterRole,
   .client .CreateOrUpdateClusterRole,
   .factory .ThanosQuerierClusterRoleBinding,
   .client .CreateOrUpdateClusterRoleBinding,
   .factory .ThanosQuerierDeployment,
   .client .CreateOrUpdateDeployment]

/-! ## Properties of traces -/

/-- Fail-fast: a call that returned an error is the last call of the trace, and the
task returned a non-nil error. -/
def FailFast (tr : List Event) (out : Outcome) : Prop :=
  ∀ (k : Nat) (e : Event), tr[k]? = some e → e.ok = false →
    tr.length = k + 1 ∧ ∃ err, out = .returned (some err)

/-- Every step of kind `a` has a strictly smaller index than every step of kind
`b`. -/
def Before (a b : CallKind) (tr : List Event) : Prop :=
  ∀ (i j : Nat) (ea eb : Event), tr[i]? = some ea → tr[j]? = some eb →
    ea.call.kind = a → eb.call.kind = b → i < j

/-- Whenever a step of kind `b` is made, a step of kind `a` was made at a smaller
index and returned success. -/
def Needs (b a : CallKind) (tr : List Event) : Prop :=
  ∀ (j : Nat) (eb : Event), tr[j]? = some eb → eb.call.kind = b →
    ∃ (i : Nat) (ea : Event), i < j ∧ tr[i]? = some ea ∧ ea.call.kind = a ∧ ea.ok = true

/-- The kind `b` depends on the kind `a` in a trace: a step of kind `b` is only made
after a successful step of kind `a`, and no step of kind `a` comes at or after a
step of kind `b`. -/
def DependsOn (b a : CallKind) (tr : List Event) : Prop :=
  Before a b tr ∧ Needs b a tr

/-- Every step that calls the client method `b`, on whatever object, comes after a
step that made the call `a` and returned success. -/
def After (b : Verb) (a : Call) (tr : List Event) : Prop :=
  ∀ (j : Nat) (e : Event), tr[j]? = some e → e.call.kind = .client b →
    ∃ (i : Nat), i < j ∧ tr[i]? = some ⟨a, true⟩

/-! ## Resources -/

/-- The kinds of resource the two tasks manage. -/
inductive Kind where
  | ConfigMap
  | ServiceAccount
  | ClusterRole
  | ClusterRoleBinding
  | Role
  | RoleBinding
  | Service
  | Prometheus
  | ServiceMonitor
  | Route
  | Secret
  | Deployment
  deriving DecidableEq, Repr

/-- Modelled from the spec: the four verbs of an OperationStep (the client package
is outside the two task files). -/
inductive Action where
  | CreateIfAbsent
  | CreateOrUpdate
  | WaitUntilReady
  | Delete
  deriving DecidableEq, Repr

/-- The verb of the spec a client method stands for, read off the method name. -/
def Verb.action : Verb → Action
  | .CreateIfNotExistConfigMap => .CreateIfAbsent
  | .CreateOrUpdateServiceAccount => .CreateOrUpdate
  | .CreateOrUpdateClusterRole => .CreateOrUpdate
  | .CreateOrUpdateClusterRoleBinding => .CreateOrUpdate
  | .CreateOrUpdateRole => .CreateOrUpdate
  | .CreateOrUpdateRoleBinding => .CreateOrUpdate
  | .CreateOrUpdateService => .CreateOrUpdate
  | .CreateOrUpdatePrometheus => .CreateOrUpdate
  | .WaitForPrometheus => .WaitUntilReady
  | .CreateOrUpdateServiceMonitor => .CreateOrUpdate
  | .DeleteServiceMonitor => .Delete
  | .DeletePrometheus => .Delete
  | .DeleteService => .Delete
  | .DeleteRoleBinding => .Delete
  | .DeleteRole => .Delete
  | .DeleteClusterRoleBinding => .Delete
  | .DeleteClusterRole => .Delete
  | .DeleteServiceAccount => .Delete
  | .DeleteConfigMap => .Delete
  | .CreateRouteIfNotExists => .CreateIfAbsent
  | .WaitForRouteReady => .WaitUntilReady
  | .CreateIfNotExistSecret => .CreateIfAbsent
  | .CreateOrUpdateDeployment => .CreateOrUpdate

/-- The kind of resource a client method works on, read off the method name. -/
def Verb.kind : Verb → Kind
  | .CreateIfNotExistConfigMap => .ConfigMap
  | .CreateOrUpdateServiceAccount => .ServiceAccount
  | .CreateOrUpdateClusterRole => .ClusterRole
  | .CreateOrUpdateClusterRoleBinding => .ClusterRoleBinding
  | .CreateOrUpdateRole => .Role
  | .CreateOrUpdateRoleBinding => .RoleBinding
  | .CreateOrUpdateService => .Service
  | .CreateOrUpdatePrometheus => .Prometheus
  | .WaitForPrometheus => .Prometheus
  | .CreateOrUpdateServiceMonitor => .ServiceMonitor
  | .DeleteServiceMonitor => .ServiceMonitor
  | .DeletePrometheus => .Prometheus
  | .DeleteService => .Service
  | .DeleteRoleBinding => .RoleBinding
  | .DeleteRole => .Role
  | .DeleteClusterRoleBinding => .ClusterRoleBinding
  | .DeleteClusterRole => .ClusterRole
  | .DeleteServiceAccount => .ServiceAccount
  | .DeleteConfigMap => .ConfigMap
  | .CreateRouteIfNotExists => .Route
  | .WaitForRouteReady => .Route
  | .CreateIfNotExistSecret => .Secret
  | .CreateOrUpdateDeployment => .Deployment

/-- A resource a step works on: its kind and the manifest handed to the client. -/
structure Resource where
  kind : Kind
  obj : Obj
  deriving DecidableEq, Repr

/-- The resource a call creates or updates, if it does. -/
def Call.written : Call → Option Resource
  | .client v o =>
    match v.action with
    | .CreateIfAbsent => some ⟨v.kind, o⟩
    | .CreateOrUpdate => some ⟨v.kind, o⟩
    | _ => none
  | _ => none

/-- The resource a call deletes, if it does. -/
def Call.deleted : Call → Option Resource
  | .client v o =>
    match v.action with
    | .Delete => some ⟨v.kind, o⟩
    | _ => none
  | _ => none

/-- The resources a run created or updated, in order. -/
def written (tr : List Event) : List Resource :=
  tr.filterMap (fun e => if e.ok then e.call.written else none)

/-- The resources a run deleted, in order. -/
def deleted (tr : List Event) : List Resource :=
  tr.filterMap (fun e => if e.ok then e.call.deleted else none)

/-- The resources `create` writes before it comes to the two lists. -/
def headResources (F : Factory) : List Resource :=
  [⟨.ConfigMap, built F.PrometheusUserWorkloadServingCertsCABundle⟩,
   ⟨.ServiceAccount, built F.PrometheusUserWorkloadServiceAccount⟩,
   ⟨.ClusterRole, built F.PrometheusUserWorkloadClusterRole⟩,
   ⟨.ClusterRoleBinding, built F.PrometheusUserWorkloadClusterRoleBinding⟩,
   ⟨.Role, built F.PrometheusUserWorkloadRoleConfig⟩]

/-- The Roles of the Role list, in list order. -/
def roleResources (F : Factory) : List Resource :=
  (built F.PrometheusUserWorkloadRoleList).map (Resource.mk .Role)

/-- The RoleBindings of the RoleBinding list, in list order. -/
def roleBindingResources (F : Factory) : List Resource :=
  (built F.PrometheusUserWorkloadRoleBindingList).map (Resource.mk .RoleBinding)

/-- The resources `create` writes after the two lists. -/
def tailResources (F : Factory) : List Resource :=
  [⟨.RoleBinding, built F.PrometheusUserWorkloadRoleBindingConfig⟩,
   ⟨.Service, built F.PrometheusUserWorkloadService⟩,
   ⟨.Prometheus, built F.PrometheusUserWorkload⟩,
   ⟨.ServiceMonitor, built F.PrometheusUserWorkloadPrometheusServiceMonitor⟩]

/-- Modelled from the spec: the identity of a ManagedResource is
(kind, namespace, name). -/
structure Ident where
  kind : Kind
  Namespace : String
  Name : String
  deriving DecidableEq, Repr

/-- The identity of a resource. -/
def Resource.ident (r : Resource) : Ident := ⟨r.kind, r.obj.Namespace, r.obj.Name⟩

/-- Modelled from the spec: the remote resource store, which holds at most one
manifest per identity. -/
abbrev Store := Ident → Option String

/-- Modelled from the spec: the effect of the idempotent verbs on the store:
create-if-absent is a no-op on a present resource, create-or-update is an upsert,
delete removes (and succeeds on an absent resource), wait changes nothing. -/
def Store.apply (s : Store) (v : Verb) (o : Obj) : Store :=
  match v.action with
  | .CreateIfAbsent =>
    match s ⟨v.kind, o.Namespace, o.Name⟩ with
    | none => Function.update s ⟨v.kind, o.Namespace, o.Name⟩ (some o.Spec)
    | some _ => s
  | .CreateOrUpdate => Function.update s ⟨v.kind, o.Namespace, o.Name⟩ (some o.Spec)
  | .WaitUntilReady => s
  | .Delete => Function.update s ⟨v.kind, o.Namespace, o.Name⟩ none

/-- Modelled from the spec: the resource client as an idempotent resource store
(the client package is outside the two task files).  Every verb succeeds. -/
def storeClient : Client Store where
  call v o s := (none, s.apply v o)
  Namespace := "openshift-monitoring"
  SecretsGet _ _ s := (.error "not found", s)

/-! ## The canonical converge order -/

/-- The phases of the canonical converge order of the spec, section 4.1. -/
inductive Phase where
  | trust
  | identity
  | authorization
  | network
  | secret
  | workload
  | ready
  | monitor
  deriving DecidableEq, Repr

/-- The position of a phase in the canonical order. -/
def Phase.rank : Phase → Nat
  | .trust => 0
  | .identity => 1
  | .authorization => 2
  | .network => 3
  | .secret => 4
  | .workload => 5
  | .ready => 6
  | .monitor => 7

/-- The phase of the resource a factory method builds. -/
def FactoryFn.phase : FactoryFn → Phase
  | .PrometheusUserWorkloadServingCertsCABundle => .trust
  | .PrometheusUserWorkloadServiceAccount => .identity
  | .PrometheusUserWorkloadClusterRole => .authorization
  | .PrometheusUserWorkloadClusterRoleBinding => .authorization
  | .PrometheusUserWorkloadRoleConfig => .authorization
  | .PrometheusUserWorkloadRoleList => .authorization
  | .PrometheusUserWorkloadRoleBindingList => .authorization
  | .PrometheusUserWorkloadRoleBindingConfig => .authorization
  | .PrometheusUserWorkloadService => .network
  | .PrometheusUserWorkload => .workload
  | .PrometheusUserWorkloadPrometheusServiceMonitor => .monitor
  | .ThanosQuerierService => .network
  | .ThanosQuerierRoute => .network
  | .ThanosQuerierOauthCookieSecret => .secret
  | .ThanosQuerierHtpasswdSecret => .secret
  | .ThanosQuerierRBACProxySecret => .secret
  | .ThanosQuerierServiceAccount => .identity
  | .ThanosQuerierClusterRole => .authorization
  | .ThanosQuerierClusterRoleBinding => .authorization
  | .ThanosQuerierDeployment => .workload

/-- The phase of the resource kind a step works on. -/
def Kind.phase : Kind → Phase
  | .ConfigMap => .trust
  | .ServiceAccount => .identity
  | .ClusterRole => .authorization
  | .ClusterRoleBinding => .authorization
  | .Role => .authorization
  | .RoleBinding => .authorization
  | .Service => .network
  | .Route => .network
  | .Secret => .secret
  | .Prometheus => .workload
  | .Deployment => .workload
  | .ServiceMonitor => .monitor

/-- The phase of a call: a wait for a workload is the phase `ready`, any other
client call has the phase of its resource kind. -/
def CallKind.phase : CallKind → Phase
  | .IsEnabled => .trust
  | .factory f => f.phase
  | .client .WaitForPrometheus => .ready
  | .client v => v.kind.phase
  | .SecretsGet => .secret

/-- The phases of a trace are in the canonical order. -/
def Canonical (tr : List Event) : Prop :=
  (tr.map (fun e => e.call.kind.phase.rank)).Pairwise (· ≤ ·)

instance : DecidablePred Canonical := fun tr => by
  unfold Canonical
  infer_instance

/-! ## Sample inputs -/

/-- A client over a store nobody reads: every call succeeds and the secret read
returns `sec`. -/
def okClient (sec : Secret) : Client Unit where
  call _ _ s := (none, s)
  Namespace := "openshift-monitoring"
  SecretsGet _ _ s := (.ok sec, s)

/-- A client whose call of the method `v` on the object called `name` returns the
error `boom`; every other call succeeds. -/
def failAt (v : Verb) (name : String) : Client Unit where
  call w o s := (if w = v ∧ o.Name = name then some "boom" else none, s)
  Namespace := "openshift-monitoring"
  SecretsGet _ _ s := (.ok ⟨fun _ => none⟩, s)

/-- A manifest with the given name. -/
def manifest (name : String) : Obj := ⟨"openshift-user-workload-monitoring", name, ""⟩

/-- A factory of which every method succeeds; the Role list has two items. -/
def sampleFactory : Factory where
  PrometheusUserWorkloadServingCertsCABundle := .ok (manifest "serving-certs-ca-bundle")
  PrometheusUserWorkloadServiceAccount := .ok (manifest "prometheus-user-workload")
  PrometheusUserWorkloadClusterRole := .ok (manifest "prometheus-user-workload")
  PrometheusUserWorkloadClusterRoleBinding := .ok (manifest "prometheus-user-workload")
  PrometheusUserWorkloadRoleConfig := .ok (manifest "prometheus-user-workload-config")
  PrometheusUserWorkloadRoleList := .ok [manifest "role-a", manifest "role-b"]
  PrometheusUserWorkloadRoleBindingList := .ok [manifest "binding-a", manifest "binding-b"]
  PrometheusUserWorkloadRoleBindingConfig := .ok (manifest "prometheus-user-workload-config")
  PrometheusUserWorkloadService := .ok (manifest "prometheus-user-workload")
  PrometheusUserWorkload := .ok (manifest "user-workload")
  PrometheusUserWorkloadPrometheusServiceMonitor := .ok (manifest "prometheus-user-workload")
  ThanosQuerierService := .ok (manifest "thanos-querier")
  ThanosQuerierRoute := .ok (manifest "thanos-querier")
  ThanosQuerierOauthCookieSecret := .ok (manifest "thanos-querier-oauth-cookie")
  ThanosQuerierHtpasswdSecret := fun password => .ok ⟨"openshift-monitoring",
    "thanos-querier-oauth-htpasswd", password⟩
  ThanosQuerierRBACProxySecret := .ok (manifest "thanos-querier-kube-rbac-proxy")
  ThanosQuerierServiceAccount := .ok (manifest "thanos-querier")
  ThanosQuerierClusterRole := .ok (manifest "thanos-querier")
  ThanosQuerierClusterRoleBinding := .ok (manifest "thanos-querier")
  ThanosQuerierDeployment := .ok (manifest "thanos-querier")

/-- A secret without the key `prometheus.yaml`. -/
def secretWithoutKey : Secret := ⟨fun _ => none⟩

/-- A secret whose key `prometheus.yaml` holds `data`. -/
def secretWith (data : String) : Secret :=
  ⟨fun key => if key = "prometheus.yaml" then some data else none⟩

/-- The JSON text of a datasources file with one datasource whose
`basicAuthPassword` is `secret`. -/
def oneDatasourceJSON : String :=
  "\x7b\"datasources\":[\x7b\"basicAuthPassword\":\"secret\"\x7d]\x7d"

/-- The JSON text of a datasources file with an empty list of datasources. -/
def noDatasourceJSON : String := "\x7b\"datasources\":[]\x7d"

/-- The results of `json.Unmarshal` into a fresh `GrafanaDatasources` on the two
JSON texts above, as the library gives them: one datasource with the password
`secret`, respectively an empty list, both without error.  Every other input used
in this file (the empty input, and a text that is not JSON) is an error that leaves
the target untouched, as in the library; no theorem depends on the value at any
further input. -/
def sampleUnmarshal (data : String) : GrafanaDatasources × Option Err :=
  if data = oneDatasourceJSON then (⟨[⟨"secret"⟩]⟩, none)
  else if data = noDatasourceJSON then (⟨[]⟩, none)
  else if data = "" then (⟨[]⟩, some "unexpected end of JSON input")
  else (⟨[]⟩, some "invalid character looking for beginning of value")

/-- The store that holds nothing. -/
def emptyStore : Store := fun _ => none

/-- The user workload task over the sample factory and an always-succeeding
client. -/
def sampleTask (enabled : Bool) : PrometheusUserWorkloadTask Unit :=
  NewPrometheusUserWorkloadTask (okClient secretWithoutKey) sampleFactory ⟨enabled⟩

/-- The user workload task over the sample factory and a client that fails once. -/
def failingTask (v : Verb) (name : String) : PrometheusUserWorkloadTask Unit :=
  NewPrometheusUserWorkloadTask (failAt v name) sampleFactory ⟨true⟩

/-- The user workload task over the sample factory and the store client. -/
def storeTask : PrometheusUserWorkloadTask Store :=
  NewPrometheusUserWorkloadTask storeClient sampleFactory ⟨true⟩

/-- The Thanos querier task over the sample factory and an always-succeeding client
whose secret read returns `sec`. -/
def thanosTask (sec : Secret) : ThanosQuerierTask Unit :=
  NewThanosQuerierTask (okClient sec) sampleFactory

/-! ## Runs conform to their plans -/

theorem Good.nil_ok {κ : Type} (abs : Call → κ) : Good abs [] (.returned none) [] :=
  ⟨by simp, by simp, by simp, by simp, by simp⟩

theorem Good.nil_panicked {κ : Type} (abs : Call → κ) (plan : List κ) :
    Good abs [] .panicked plan :=
  ⟨by simp, by simp, by simp, by simp, by simp⟩

theorem Good.fail {κ : Type} (abs : Call → κ) (c : Call) (err : Err) (plan : List κ) :
    Good abs [⟨c, false⟩] (.returned (some err)) (abs c :: plan) :=
  ⟨by simp [List.prefix_cons_iff], by simp, by simp, by simp, by simp⟩

theorem Good.cons {κ : Type} {abs : Call → κ} {tr : List Event} {out : Outcome}
    {plan : List κ} (h : Good abs tr out plan) (c : Call) :
    Good abs (⟨c, true⟩ :: tr) out (abs c :: plan) := by
  refine ⟨?_, ?_, ?_, ?_, ?_⟩
  · simpa [List.cons_prefix_cons] using h.pre
  · intro e he
    cases tr with
    | nil => simp at he
    | cons x xs =>
      rw [List.dropLast_cons₂] at he
      rcases List.mem_cons.1 he with rfl | he
      · rfl
      · exact h.init_ok e he
  · rintro ⟨e, he, hf⟩
    rcases List.mem_cons.1 he with rfl | he
    · simp at hf
    · exact h.failed ⟨e, he, hf⟩
  · intro ho
    simp [h.complete ho]
  · intro hall
    exact h.clean (fun e he => hall e (List.mem_cons_of_mem _ he))

theorem Good.map {κ κ₂ : Type} {abs : Call → κ} {tr : List Event} {out : Outcome}
    {plan : List κ} (h : Good abs tr out plan) (f : κ → κ₂) :
    Good (fun c => f (abs c)) tr out (plan.map f) := by
  refine ⟨?_, h.init_ok, h.failed, ?_, h.clean⟩
  · have := h.pre.map f
    simpa [List.map_map, Function.comp_def] using this
  · intro ho
    have := congrArg (List.map f) (h.complete ho)
    simpa [List.map_map, Function.comp_def] using this

theorem Conforms.pure_nil {σ α κ : Type} (c : Client σ) {view : α → Outcome} (abs : Call → κ)
    (a : α) (h : view a = .returned none) : Conforms c view abs (pure a : M σ α) [] := by
  intro s
  refine ⟨?_, rfl⟩
  show Good abs [] (view a) []
  rw [h]
  exact Good.nil_ok abs

theorem Conforms.pure_panicked {σ α κ : Type} (c : Client σ) {view : α → Outcome}
    (abs : Call → κ) (a : α) (plan : List κ) (h : view a = .panicked) :
    Conforms c view abs (pure a : M σ α) plan := by
  intro s
  refine ⟨?_, rfl⟩
  show Good abs [] (view a) plan
  rw [h]
  exact Good.nil_panicked abs plan

theorem Conforms.client {σ α κ : Type} {view : α → Outcome} {abs : Call → κ}
    (c : Client σ) (v : Verb) (o : Obj) (k : Option Err → M σ α) {plan : List κ}
    (herr : ∀ e, FailsWith view k (some e)) (hok : Conforms c view abs (k none) plan) :
    Conforms c view abs (clientCall c v o >>= k) (abs (.client v o) :: plan) := by
  intro s
  show Good abs ([⟨.client v o, (c.call v o s).1.isNone⟩] ++
      (k (c.call v o s).1 (c.call v o s).2).trace)
    (view (k (c.call v o s).1 (c.call v o s).2).val) _ ∧
    (k (c.call v o s).1 (c.call v o s).2).state =
      c.replay ([⟨.client v o, (c.call v o s).1.isNone⟩] ++
        (k (c.call v o s).1 (c.call v o s).2).trace) s
  cases h : (c.call v o s).1 with
  | none => exact ⟨((hok _).1).cons _, (hok _).2⟩
  | some e =>
    obtain ⟨h1, h2, err, h3⟩ := herr e (c.call v o s).2
    rw [h1, h2, h3]
    exact ⟨Good.fail abs _ err plan, rfl⟩

theorem Conforms.factory_error {σ α β κ : Type} {c : Client σ} {view : α → Outcome}
    {abs : Call → κ} (f : FactoryFn) (e : Err) (k : Except Err β → M σ α) {plan : List κ}
    (herr : FailsWith view k (.error e)) :
    Conforms c view abs (factoryCall f (.error e) >>= k) (abs (.factory f) :: plan) := by
  intro s
  show Good abs ([⟨.factory f, false⟩] ++ (k (.error e) s).trace) (view (k (.error e) s).val) _ ∧
    (k (.error e) s).state = c.replay ([⟨.factory f, false⟩] ++ (k (.error e) s).trace) s
  obtain ⟨h1, h2, err, h3⟩ := herr s
  rw [h1, h2, h3]
  exact ⟨Good.fail abs _ err plan, rfl⟩

theorem Conforms.factory_ok {σ α β κ : Type} {c : Client σ} {view : α → Outcome}
    {abs : Call → κ} (f : FactoryFn) (x : β) (k : Except Err β → M σ α) {plan : List κ}
    (hok : Conforms c view abs (k (.ok x)) plan) :
    Conforms c view abs (factoryCall f (.ok x) >>= k) (abs (.factory f) :: plan) := by
  intro s
  exact ⟨((hok s).1).cons _, (hok s).2⟩

theorem Conforms.factory {σ α β κ : Type} {c : Client σ} {view : α → Outcome}
    {abs : Call → κ} (f : FactoryFn) (r : Except Err β) (k : Except Err β → M σ α)
    {plan : List κ} (herr : ∀ e, FailsWith view k (.error e))
    (hok : ∀ x, Conforms c view abs (k (.ok x)) plan) :
    Conforms c view abs (factoryCall f r >>= k) (abs (.factory f) :: plan) := by
  cases r with
  | error e => exact Conforms.factory_error f e k (herr e)
  | ok x => exact Conforms.factory_ok f x k (hok x)

theorem Conforms.secretsGet {σ α κ : Type} {view : α → Outcome} {abs : Call → κ}
    (c : Client σ) (ns name : String) (k : Except Err Secret → M σ α) {plan : List κ}
    (herr : ∀ e, FailsWith view k (.error e))
    (hok : ∀ x, Conforms c view abs (k (.ok x)) plan) :
    Conforms c view abs (secretsGet c ns name >>= k) (abs (.SecretsGet ns name) :: plan) := by
  intro s
  show Good abs ([⟨.SecretsGet ns name, (c.SecretsGet ns name s).1.toBool⟩] ++
      (k (c.SecretsGet ns name s).1 (c.SecretsGet ns name s).2).trace)
    (view (k (c.SecretsGet ns name s).1 (c.SecretsGet ns name s).2).val) _ ∧
    (k (c.SecretsGet ns name s).1 (c.SecretsGet ns name s).2).state =
      c.replay ([⟨.SecretsGet ns name, (c.SecretsGet ns name s).1.toBool⟩] ++
        (k (c.SecretsGet ns name s).1 (c.SecretsGet ns name s).2).trace) s
  cases h : (c.SecretsGet ns name s).1 with
  | ok x => exact ⟨((hok x _).1).cons _, (hok x _).2⟩
  | error e =>
    obtain ⟨h1, h2, err, h3⟩ := herr e (c.SecretsGet ns name s).2
    rw [h1, h2, h3]
    exact ⟨Good.fail abs _ err plan, rfl⟩

theorem Conforms.isEnabled {σ α κ : Type} {c : Client σ} {view : α → Outcome}
    {abs : Call → κ} (cfg : UserWorkloadConfig) (k : Bool → M σ α) {plan : List κ}
    (hok : Conforms c view abs (k cfg.IsEnabled) plan) :
    Conforms c view abs (isEnabled cfg >>= k) (abs .IsEnabled :: plan) := by
  intro s
  exact ⟨((hok s).1).cons _, (hok s).2⟩

theorem M.pure_bind {σ α β : Type} (a : α) (k : α → M σ β) : (pure a >>= k) = k a := rfl

theorem M.bind_assoc {σ α β γ : Type} (m : M σ α) (f : α → M σ β) (k : β → M σ γ) :
    (m >>= f >>= k) = (m >>= fun a => f a >>= k) := by
  funext s
  have h := List.append_assoc (m s).trace (f (m s).val (m s).state).trace
    (k (f (m s).val (m s).state).val (f (m s).val (m s).state).state).trace
  exact congrArg (fun tr => Out.mk
    (k (f (m s).val (m s).state).val (f (m s).val (m s).state).state).val tr
    (k (f (m s).val (m s).state).val (f (m s).val (m s).state).state).state) h

/-- A `range` loop over `items` that calls `c.v(item)` and returns from the task at
the first error. -/
theorem Conforms.loop {σ α κ : Type} {view : α → Outcome} {abs : Call → κ}
    (c : Client σ) (v : Verb) (msg : Obj → String) (loop : List Obj → M σ (Option Err))
    (h0 : loop [] = pure none)
    (h1 : ∀ x rest, loop (x :: rest) =
      (clientCall c v x >>= fun err => if err ≠ none then pure (Wrap err (msg x)) else loop rest))
    (k : Option Err → M σ α) {plan : List κ}
    (herr : ∀ e, FailsWith view k (some e)) (hok : Conforms c view abs (k none) plan)
    (items : List Obj) :
    Conforms c view abs (loop items >>= k) (items.map (fun o => abs (.client v o)) ++ plan) := by
  induction items with
  | nil =>
    rw [h0, M.pure_bind]
    exact hok
  | cons x rest ih =>
    rw [h1, M.bind_assoc]
    refine Conforms.client c v x _ ?_ ?_
    · intro e s
      exact herr (msg x ++ ": " ++ e) s
    · exact ih

theorem PrometheusUserWorkloadTask.create_conforms {σ : Type}
    (t : PrometheusUserWorkloadTask σ) :
    Conforms t.client Outcome.returned id t.create (createPlan t.factory) := by
  obtain ⟨c, ⟨f1, f2, f3, f4, f5, f6, f7, f8, f9, f10, f11, g1, g2, g3, g4, g5, g6, g7, g8, g9⟩,
    cfg⟩ := t
  unfold PrometheusUserWorkloadTask.create createPlan
  rcases f1 with e | cacm
  · exact Conforms.factory_error _ _ _ (fun s => ⟨rfl, rfl, _, rfl⟩)
  refine Conforms.factory_ok _ _ _ ?_
  refine Conforms.client _ _ _ _ (fun e s => ⟨rfl, rfl, _, rfl⟩) ?_
  rcases f2 with e | sa
  · exact Conforms.factory_error _ _ _ (fun s => ⟨rfl, rfl, _, rfl⟩)
  refine Conforms.factory_ok _ _ _ ?_
  refine Conforms.client _ _ _ _ (fun e s => ⟨rfl, rfl, _, rfl⟩) ?_
  rcases f3 with e | cr
  · exact Conforms.factory_error _ _ _ (fun s => ⟨rfl, rfl, _, rfl⟩)
  refine Conforms.factory_ok _ _ _ ?_
  refine Conforms.client _ _ _ _ (fun e s => ⟨rfl, rfl, _, rfl⟩) ?_
  rcases f4 with e | crb
  · exact Conforms.factory_error _ _ _ (fun s => ⟨rfl, rfl, _, rfl⟩)
  refine Conforms.factory_ok _ _ _ ?_
  refine Conforms.client _ _ _ _ (fun e s => ⟨rfl, rfl, _, rfl⟩) ?_
  rcases f5 with e | rc
  · exact Conforms.factory_error _ _ _ (fun s => ⟨rfl, rfl, _, rfl⟩)
  refine Conforms.factory_ok _ _ _ ?_
  refine Conforms.client _ _ _ _ (fun e s => ⟨rfl, rfl, _, rfl⟩) ?_
  rcases f6 with e | rl
  · exact Conforms.factory_error _ _ _ (fun s => ⟨rfl, rfl, _, rfl⟩)
  refine Conforms.factory_ok _ _ _ ?_
  refine Conforms.loop c .CreateOrUpdateRole _ _ rfl (fun _ _ => rfl) _
    (fun e s => ⟨rfl, rfl, _, rfl⟩) ?_ rl
  rcases f7 with e | rbl
  · exact Conforms.factory_error _ _ _ (fun s => ⟨rfl, rfl, _, rfl⟩)
  refine Conforms.factory_ok _ _ _ ?_
  refine Conforms.loop c .CreateOrUpdateRoleBinding _ _ rfl (fun _ _ => rfl) _
    (fun e s => ⟨rfl, rfl, _, rfl⟩) ?_ rbl
  rcases f8 with e | rbc
  · exact Conforms.factory_error _ _ _ (fun s => ⟨rfl, rfl, _, rfl⟩)
  refine Conforms.factory_ok _ _ _ ?_
  refine Conforms.client _ _ _ _ (fun e s => ⟨rfl, rfl, _, rfl⟩) ?_
  rcases f9 with e | svc
  · exact Conforms.factory_error _ _ _ (fun s => ⟨rfl, rfl, _, rfl⟩)
  refine Conforms.factory_ok _ _ _ ?_
  refine Conforms.client _ _ _ _ (fun e s => ⟨rfl, rfl, _, rfl⟩) ?_
  rcases f10 with e | p
  · exact Conforms.factory_error _ _ _ (fun s => ⟨rfl, rfl, _, rfl⟩)
  refine Conforms.factory_ok _ _ _ ?_
  refine Conforms.client _ _ _ _ (fun e s => ⟨rfl, rfl, _, rfl⟩) ?_
  refine Conforms.client _ _ _ _ (fun e s => ⟨rfl, rfl, _, rfl⟩) ?_
  rcases f11 with e | smp
  · exact Conforms.factory_error _ _ _ (fun s => ⟨rfl, rfl, _, rfl⟩)
  refine Conforms.factory_ok _ _ _ ?_
  refine Conforms.client _ _ _ _ (fun e s => ⟨rfl, rfl, _, rfl⟩) ?_
  exact Conforms.pure_nil _ _ _ rfl

theorem PrometheusUserWorkloadTask.destroy_conforms {σ : Type}
    (t : PrometheusUserWorkloadTask σ) :
    Conforms t.client Outcome.returned id t.destroy (destroyPlan t.factory) := by
  obtain ⟨c, ⟨f1, f2, f3, f4, f5, f6, f7, f8, f9, f10, f11, g1, g2, g3, g4, g5, g6, g7, g8, g9⟩,
    cfg⟩ := t
  unfold PrometheusUserWorkloadTask.destroy destroyPlan
  rcases f11 with e | smp
  · exact Conforms.factory_error _ _ _ (fun s => ⟨rfl, rfl, _, rfl⟩)
  refine Conforms.factory_ok _ _ _ ?_
  refine Conforms.client _ _ _ _ (fun e s => ⟨rfl, rfl, _, rfl⟩) ?_
  rcases f10 with e | p
  · exact Conforms.factory_error _ _ _ (fun s => ⟨rfl, rfl, _, rfl⟩)
  refine Conforms.factory_ok _ _ _ ?_
  refine Conforms.client _ _ _ _ (fun e s => ⟨rfl, rfl, _, rfl⟩) ?_
  rcases f9 with e | svc
  · exact Conforms.factory_error _ _ _ (fun s => ⟨rfl, rfl, _, rfl⟩)
  refine Conforms.factory_ok _ _ _ ?_
  refine Conforms.client _ _ _ _ (fun e s => ⟨rfl, rfl, _, rfl⟩) ?_
  rcases f8 with e | rbc
  · exact Conforms.factory_error _ _ _ (fun s => ⟨rfl, rfl, _, rfl⟩)
  refine Conforms.factory_ok _ _ _ ?_
  refine Conforms.client _ _ _ _ (fun e s => ⟨rfl, rfl, _, rfl⟩) ?_
  rcases f7 with e | rbl
  · exact Conforms.factory_error _ _ _ (fun s => ⟨rfl, rfl, _, rfl⟩)
  refine Conforms.factory_ok _ _ _ ?_
  refine Conforms.loop c .DeleteRoleBinding _ _ rfl (fun _ _ => rfl) _
    (fun e s => ⟨rfl, rfl, _, rfl⟩) ?_ rbl
  rcases f6 with e | rl
  · exact Conforms.factory_error _ _ _ (fun s => ⟨rfl, rfl, _, rfl⟩)
  refine Conforms.factory_ok _ _ _ ?_
  refine Conforms.loop c .DeleteRole _ _ rfl (fun _ _ => rfl) _
    (fun e s => ⟨rfl, rfl, _, rfl⟩) ?_ rl
  rcases f5 with e | rc
  · exact Conforms.factory_error _ _ _ (fun s => ⟨rfl, rfl, _, rfl⟩)
  refine Conforms.factory_ok _ _ _ ?_
  refine Conforms.client _ _ _ _ (fun e s => ⟨rfl, rfl, _, rfl⟩) ?_
  rcases f4 with e | crb
  · exact Conforms.factory_error _ _ _ (fun s => ⟨rfl, rfl, _, rfl⟩)
  refine Conforms.factory_ok _ _ _ ?_
  refine Conforms.client _ _ _ _ (fun e s => ⟨rfl, rfl, _, rfl⟩) ?_
  rcases f3 with e | cr
  · exact Conforms.factory_error _ _ _ (fun s => ⟨rfl, rfl, _, rfl⟩)
  refine Conforms.factory_ok _ _ _ ?_
  refine Conforms.client _ _ _ _ (fun e s => ⟨rfl, rfl, _, rfl⟩) ?_
  rcases f2 with e | sa
  · exact Conforms.factory_error _ _ _ (fun s => ⟨rfl, rfl, _, rfl⟩)
  refine Conforms.factory_ok _ _ _ ?_
  refine Conforms.client _ _ _ _ (fun e s => ⟨rfl, rfl, _, rfl⟩) ?_
  rcases f1 with e | cacm
  · exact Conforms.factory_error _ _ _ (fun s => ⟨rfl, rfl, _, rfl⟩)
  refine Conforms.factory_ok _ _ _ ?_
  refine Conforms.client _ _ _ _ (fun e s => ⟨rfl, rfl, _, rfl⟩) ?_
  exact Conforms.pure_nil _ _ _ rfl

theorem PrometheusUserWorkloadTask.Run_conforms {σ : Type}
    (t : PrometheusUserWorkloadTask σ) :
    Conforms t.client Outcome.returned id t.Run
      (runPlan t.userWorkloadConfig.IsEnabled t.factory) := by
  unfold PrometheusUserWorkloadTask.Run runPlan
  refine Conforms.isEnabled _ _ ?_
  cases h : t.userWorkloadConfig.IsEnabled with
  | true => exact t.create_conforms
  | false => exact t.destroy_conforms

theorem ThanosQuerierTask.Run_follows_plan {σ : Type}
    (unmarshal : String → GrafanaDatasources × Option Err) (t : ThanosQuerierTask σ) :
    Conforms t.client id Call.kind (t.Run unmarshal) thanosPlan := by
  unfold ThanosQuerierTask.Run thanosPlan
  refine Conforms.factory _ _ _ (fun e s => ⟨rfl, rfl, _, rfl⟩) (fun svc => ?_)
  refine Conforms.client _ _ _ _ (fun e s => ⟨rfl, rfl, _, rfl⟩) ?_
  refine Conforms.factory _ _ _ (fun e s => ⟨rfl, rfl, _, rfl⟩) (fun r => ?_)
  refine Conforms.client _ _ _ _ (fun e s => ⟨rfl, rfl, _, rfl⟩) ?_
  refine Conforms.client _ _ _ _ (fun e s => ⟨rfl, rfl, _, rfl⟩) ?_
  refine Conforms.factory _ _ _ (fun e s => ⟨rfl, rfl, _, rfl⟩) (fun sec => ?_)
  refine Conforms.client _ _ _ _ (fun e s => ⟨rfl, rfl, _, rfl⟩) ?_
  refine Conforms.secretsGet _ _ _ _ (fun e s => ⟨rfl, rfl, _, rfl⟩) (fun cm => ?_)
  dsimp only
  split
  · exact Conforms.pure_panicked _ _ _ _ rfl
  refine Conforms.factory _ _ _ (fun e s => ⟨rfl, rfl, _, rfl⟩) (fun hs => ?_)
  refine Conforms.client _ _ _ _ (fun e s => ⟨rfl, rfl, _, rfl⟩) ?_
  refine Conforms.factory _ _ _ (fun e s => ⟨rfl, rfl, _, rfl⟩) (fun rs => ?_)
  refine Conforms.client _ _ _ _ (fun e s => ⟨rfl, rfl, _, rfl⟩) ?_
  refine Conforms.factory _ _ _ (fun e s => ⟨rfl, rfl, _, rfl⟩) (fun sa => ?_)
  refine Conforms.client _ _ _ _ (fun e s => ⟨rfl, rfl, _, rfl⟩) ?_
  refine Conforms.factory _ _ _ (fun e s => ⟨rfl, rfl, _, rfl⟩) (fun cr => ?_)
  refine Conforms.client _ _ _ _ (fun e s => ⟨rfl, rfl, _, rfl⟩) ?_
  refine Conforms.factory _ _ _ (fun e s => ⟨rfl, rfl, _, rfl⟩) (fun crb => ?_)
  refine Conforms.client _ _ _ _ (fun e s => ⟨rfl, rfl, _, rfl⟩) ?_
  refine Conforms.factory _ _ _ (fun e s => ⟨rfl, rfl, _, rfl⟩) (fun dep => ?_)
  refine Conforms.client _ _ _ _ (fun e s => ⟨rfl, rfl, _, rfl⟩) ?_
  exact Conforms.pure_nil _ _ _ rfl

theorem ConformsP.step_client {σ α κ : Type} {view : α → Outcome}
    {abs : Call → κ} (c : Client σ) (v : Verb) (o : Obj) (k : Option Err → M σ α)
    {plan : Secret → List κ} (herr : ∀ e, FailsWith view k (some e))
    (hok : ConformsP c view abs (k none) plan) :
    ConformsP c view abs (clientCall c v o >>= k) (fun p => abs (.client v o) :: plan p) := by
  intro s
  show ∃ p, Good abs ([⟨.client v o, (c.call v o s).1.isNone⟩] ++
      (k (c.call v o s).1 (c.call v o s).2).trace)
    (view (k (c.call v o s).1 (c.call v o s).2).val) _ ∧
    (k (c.call v o s).1 (c.call v o s).2).state =
      c.replay ([⟨.client v o, (c.call v o s).1.isNone⟩] ++
        (k (c.call v o s).1 (c.call v o s).2).trace) s ∧
    ∀ x, c.secretRead ([⟨.client v o, (c.call v o s).1.isNone⟩] ++
        (k (c.call v o s).1 (c.call v o s).2).trace) s = some x → x = p
  cases h : (c.call v o s).1 with
  | none =>
    obtain ⟨p, hg, hs, hr⟩ := hok (c.call v o s).2
    exact ⟨p, hg.cons _, hs, hr⟩
  | some e =>
    obtain ⟨h1, h2, err, h3⟩ := herr e (c.call v o s).2
    rw [h1, h2, h3]
    exact ⟨default, Good.fail abs _ err _, rfl, fun x hx => by simp [Client.secretRead] at hx⟩

theorem ConformsP.step_factory_error {σ α β κ : Type} {c : Client σ}
    {view : α → Outcome} {abs : Call → κ} (f : FactoryFn) (e : Err)
    (k : Except Err β → M σ α) {plan : Secret → List κ}
    (herr : FailsWith view k (.error e)) :
    ConformsP c view abs (factoryCall f (.error e) >>= k)
      (fun p => abs (.factory f) :: plan p) := by
  intro s
  show ∃ p, Good abs ([⟨.factory f, false⟩] ++ (k (.error e) s).trace)
      (view (k (.error e) s).val) _ ∧
    (k (.error e) s).state = c.replay ([⟨.factory f, false⟩] ++ (k (.error e) s).trace) s ∧
    ∀ x, c.secretRead ([⟨.factory f, false⟩] ++ (k (.error e) s).trace) s = some x → x = p
  obtain ⟨h1, h2, err, h3⟩ := herr s
  rw [h1, h2, h3]
  exact ⟨default, Good.fail abs _ err _, rfl, fun x hx => by simp [Client.secretRead] at hx⟩

theorem ConformsP.step_factory_ok {σ α β κ : Type} {c : Client σ} {view : α → Outcome}
    {abs : Call → κ} (f : FactoryFn) (x : β) (k : Except Err β → M σ α)
    {plan : Secret → List κ} (hok : ConformsP c view abs (k (.ok x)) plan) :
    ConformsP c view abs (factoryCall f (.ok x) >>= k)
      (fun p => abs (.factory f) :: plan p) := by
  intro s
  obtain ⟨p, hg, hs, hr⟩ := hok s
  exact ⟨p, hg.cons _, hs, hr⟩

theorem ConformsP.step_secretsGet {σ α κ : Type} {view : α → Outcome} {abs : Call → κ}
    (c : Client σ) (ns name : String) (k : Except Err Secret → M σ α)
    {plan : Secret → List κ} (herr : ∀ e, FailsWith view k (.error e))
    (hok : ∀ x, Conforms c view abs (k (.ok x)) (plan x)) :
    ConformsP c view abs (secretsGet c ns name >>= k)
      (fun p => abs (.SecretsGet ns name) :: plan p) := by
  intro s
  show ∃ p, Good abs ([⟨.SecretsGet ns name, (c.SecretsGet ns name s).1.toBool⟩] ++
      (k (c.SecretsGet ns name s).1 (c.SecretsGet ns name s).2).trace)
    (view (k (c.SecretsGet ns name s).1 (c.SecretsGet ns name s).2).val) _ ∧
    (k (c.SecretsGet ns name s).1 (c.SecretsGet ns name s).2).state =
      c.replay ([⟨.SecretsGet ns name, (c.SecretsGet ns name s).1.toBool⟩] ++
        (k (c.SecretsGet ns name s).1 (c.SecretsGet ns name s).2).trace) s ∧
    ∀ x, (c.SecretsGet ns name s).1.toOption = some x → x = p
  cases h : (c.SecretsGet ns name s).1 with
  | ok x =>
    refine ⟨x, ((hok x _).1).cons _, (hok x _).2, fun y hy => ?_⟩
    simpa [Except.toOption] using hy.symm
  | error e =>
    obtain ⟨h1, h2, err, h3⟩ := herr e (c.SecretsGet ns name s).2
    rw [h1, h2, h3]
    exact ⟨default, Good.fail abs _ err _, rfl, fun x hx => by simp [Except.toOption] at hx⟩

theorem ThanosQuerierTask.Run_follows_calls {σ : Type}
    (unmarshal : String → GrafanaDatasources × Option Err) (t : ThanosQuerierTask σ) :
    ConformsP t.client id id (t.Run unmarshal)
      (thanosCallsOf unmarshal t.factory t.client.Namespace) := by
  obtain ⟨c, ⟨f1, f2, f3, f4, f5, f6, f7, f8, f9, f10, f11, g1, g2, g3, g4, g5, g6, g7, g8,
    g9⟩⟩ := t
  unfold ThanosQuerierTask.Run thanosCallsOf thanosCalls
  rcases g1 with e | svc
  · exact ConformsP.step_factory_error _ _ _ (fun s => ⟨rfl, rfl, _, rfl⟩)
  refine ConformsP.step_factory_ok _ _ _ ?_
  refine ConformsP.step_client _ _ _ _ (fun e s => ⟨rfl, rfl, _, rfl⟩) ?_
  rcases g2 with e | r
  · exact ConformsP.step_factory_error _ _ _ (fun s => ⟨rfl, rfl, _, rfl⟩)
  refine ConformsP.step_factory_ok _ _ _ ?_
  refine ConformsP.step_client _ _ _ _ (fun e s => ⟨rfl, rfl, _, rfl⟩) ?_
  refine ConformsP.step_client _ _ _ _ (fun e s => ⟨rfl, rfl, _, rfl⟩) ?_
  rcases g3 with e | sec
  · exact ConformsP.step_factory_error _ _ _ (fun s => ⟨rfl, rfl, _, rfl⟩)
  refine ConformsP.step_factory_ok _ _ _ ?_
  refine ConformsP.step_client _ _ _ _ (fun e s => ⟨rfl, rfl, _, rfl⟩) ?_
  refine ConformsP.step_secretsGet _ _ _ _ (fun e s => ⟨rfl, rfl, _, rfl⟩) (fun cm => ?_)
  dsimp only
  split
  · exact Conforms.pure_panicked _ _ _ _ rfl
  rename_i ds0 rest heq
  have hpw : firstPassword unmarshal cm = ds0.BasicAuthPassword := by
    simp [firstPassword, heq]
  rw [hpw]
  rcases hhs : g4 ds0.BasicAuthPassword with e | hs
  · exact Conforms.factory_error _ _ _ (fun s => ⟨rfl, rfl, _, rfl⟩)
  refine Conforms.factory_ok _ _ _ ?_
  refine Conforms.client _ _ _ _ (fun e s => ⟨rfl, rfl, _, rfl⟩) ?_
  rcases g5 with e | rs
  · exact Conforms.factory_error _ _ _ (fun s => ⟨rfl, rfl, _, rfl⟩)
  refine Conforms.factory_ok _ _ _ ?_
  refine Conforms.client _ _ _ _ (fun e s => ⟨rfl, rfl, _, rfl⟩) ?_
  rcases g6 with e | sa
  · exact Conforms.factory_error _ _ _ (fun s => ⟨rfl, rfl, _, rfl⟩)
  refine Conforms.factory_ok _ _ _ ?_
  refine Conforms.client _ _ _ _ (fun e s => ⟨rfl, rfl, _, rfl⟩) ?_
  rcases g7 with e | cr
  · exact Conforms.factory_error _ _ _ (fun s => ⟨rfl, rfl, _, rfl⟩)
  refine Conforms.factory_ok _ _ _ ?_
  refine Conforms.client _ _ _ _ (fun e s => ⟨rfl, rfl, _, rfl⟩) ?_
  rcases g8 with e | crb
  · exact Conforms.factory_error _ _ _ (fun s => ⟨rfl, rfl, _, rfl⟩)
  refine Conforms.factory_ok _ _ _ ?_
  refine Conforms.client _ _ _ _ (fun e s => ⟨rfl, rfl, _, rfl⟩) ?_
  rcases g9 with e | dep
  · exact Conforms.factory_error _ _ _ (fun s => ⟨rfl, rfl, _, rfl⟩)
  refine Conforms.factory_ok _ _ _ ?_
  refine Conforms.client _ _ _ _ (fun e s => ⟨rfl, rfl, _, rfl⟩) ?_
  exact Conforms.pure_nil _ _ _ rfl

/-! ## Consequences of conformance -/

theorem pairwise_at {α : Type} {R : α → α → Prop} {l : List α} (h : l.Pairwise R)
    {i j : Nat} {x y : α} (hi : l[i]? = some x) (hj : l[j]? = some y) (hij : i < j) :
    R x y := by
  obtain ⟨hi', rfl⟩ := List.getElem?_eq_some.1 hi
  obtain ⟨hj', rfl⟩ := List.getElem?_eq_some.1 hj
  exact List.pairwise_iff_getElem.1 h i j hi' hj' hij

theorem prefix_at {α : Type} {l₁ l₂ : List α} (h : l₁ <+: l₂) {i : Nat} {x : α}
    (hi : l₁[i]? = some x) : l₂[i]? = some x := by
  obtain ⟨t, rfl⟩ := h
  rw [List.getElem?_append_left (List.getElem?_eq_some.1 hi).1]
  exact hi

theorem index_lt_of_pairwise {κ : Type} {plan : List κ} {a b : κ} (hab : a ≠ b)
    (hp : plan.Pairwise (fun x y => ¬(x = b ∧ y = a))) {i j : Nat}
    (hi : plan[i]? = some a) (hj : plan[j]? = some b) : i < j := by
  rcases Nat.lt_trichotomy i j with h | h | h
  · exact h
  · subst h
    rw [hi] at hj
    exact absurd (Option.some.inj hj) hab
  · exact absurd ⟨rfl, rfl⟩ (pairwise_at hp hj hi h)

theorem Good.failFast {κ : Type} {abs : Call → κ} {tr : List Event} {out : Outcome}
    {plan : List κ} (h : Good abs tr out plan) : FailFast tr out := by
  intro k e hk hf
  have hlen : k < tr.length := (List.getElem?_eq_some.1 hk).1
  refine ⟨?_, h.failed ⟨e, List.mem_iff_getElem?.2 ⟨k, hk⟩, hf⟩⟩
  by_contra hne
  have hk' : k < tr.length - 1 := by omega
  have hmem : e ∈ tr.dropLast :=
    List.mem_iff_getElem?.2 ⟨k, by rw [List.getElem?_dropLast, if_pos hk']; exact hk⟩
  have hok := h.init_ok e hmem
  rw [hf] at hok
  cases hok

theorem Good.all_ok {κ : Type} {abs : Call → κ} {tr : List Event} {out : Outcome}
    {plan : List κ} (h : Good abs tr out plan) (ho : out = .returned none) :
    ∀ e ∈ tr, e.ok = true := by
  intro e he
  by_contra hf
  obtain ⟨err, herr⟩ := h.failed ⟨e, he, by simpa using hf⟩
  rw [ho] at herr
  cases herr

theorem Good.before {tr : List Event} {out : Outcome} {plan : List CallKind}
    (h : Good Call.kind tr out plan) {a b : CallKind} (hab : a ≠ b)
    (hp : plan.Pairwise (fun x y => ¬(x = b ∧ y = a))) : Before a b tr := by
  intro i j ea eb hi hj ha hb
  have hi' : plan[i]? = some a := prefix_at h.pre (by simp [hi, ha])
  have hj' : plan[j]? = some b := prefix_at h.pre (by simp [hj, hb])
  exact index_lt_of_pairwise hab hp hi' hj'

theorem Good.needs {tr : List Event} {out : Outcome} {plan : List CallKind}
    (h : Good Call.kind tr out plan) {a b : CallKind} (hab : a ≠ b)
    (hp : plan.Pairwise (fun x y => ¬(x = b ∧ y = a))) (hmem : a ∈ plan) : Needs b a tr := by
  intro j eb hj hb
  have hj' : plan[j]? = some b := prefix_at h.pre (by simp [hj, hb])
  obtain ⟨i, hi⟩ := List.mem_iff_getElem?.1 hmem
  have hij : i < j := index_lt_of_pairwise hab hp hi hj'
  have hjlen : j < tr.length := (List.getElem?_eq_some.1 hj).1
  have hilen : i < tr.length := lt_trans hij hjlen
  have hti : tr[i]? = some tr[i] := List.getElem?_eq_getElem hilen
  refine ⟨i, tr[i], hij, hti, ?_, ?_⟩
  · have h1 : plan[i]? = some (tr[i]).call.kind := prefix_at h.pre (by simp [hti])
    rw [hi] at h1
    exact (Option.some.inj h1).symm
  · refine h.init_ok _ (List.mem_iff_getElem?.2 ⟨i, ?_⟩)
    rw [List.getElem?_dropLast, if_pos (by omega)]
    exact hti

theorem Good.dependsOn {tr : List Event} {out : Outcome} {plan : List CallKind}
    (h : Good Call.kind tr out plan) {a b : CallKind} (hab : a ≠ b)
    (hp : plan.Pairwise (fun x y => ¬(x = b ∧ y = a))) (hmem : a ∈ plan) :
    DependsOn b a tr :=
  ⟨h.before hab hp, h.needs hab hp hmem⟩

theorem earlier_of_pairwise {plan : List Call} {a : Call} {isB : Call → Prop}
    (ha : a ∈ plan) (hna : ¬ isB a) (hp : plan.Pairwise (fun x y => ¬(isB x ∧ y = a)))
    (j : Nat) (c : Call) (hj : plan[j]? = some c) (hc : isB c) :
    ∃ (i : Nat), i < j ∧ plan[i]? = some a := by
  obtain ⟨i, hi⟩ := List.mem_iff_getElem?.1 ha
  refine ⟨i, ?_, hi⟩
  rcases Nat.lt_trichotomy i j with h | h | h
  · exact h
  · subst h
    rw [hi] at hj
    cases hj
    exact absurd hc hna
  · exact absurd ⟨hc, rfl⟩ (pairwise_at hp hj hi h)

theorem Good.after {tr : List Event} {out : Outcome} {plan : List Call}
    (h : Good id tr out plan) {a : Call} {b : Verb} (ha : a ∈ plan)
    (hna : ¬ a.kind = .client b)
    (hp : plan.Pairwise (fun x y => ¬(x.kind = .client b ∧ y = a))) : After b a tr := by
  intro j eb hj hb
  have hj' : plan[j]? = some eb.call := prefix_at h.pre (by simp [hj])
  obtain ⟨i, hij, hi⟩ := earlier_of_pairwise ha hna hp j _ hj' hb
  have hjlen : j < tr.length := (List.getElem?_eq_some.1 hj).1
  have hilen : i < tr.length := lt_trans hij hjlen
  have hti : tr[i]? = some tr[i] := List.getElem?_eq_getElem hilen
  have hcall : (tr[i]).call = a := by
    have h1 : plan[i]? = some (tr[i]).call := prefix_at h.pre (by simp [hti])
    rw [hi] at h1
    exact (Option.some.inj h1).symm
  have hok : (tr[i]).ok = true := by
    refine h.init_ok _ (List.mem_iff_getElem?.2 ⟨i, ?_⟩)
    rw [List.getElem?_dropLast, if_pos (by omega)]
    exact hti
  refine ⟨i, hij, ?_⟩
  rw [hti, ← hcall, ← hok]

theorem map_ok_of_all_ok (tr : List Event) (h : ∀ e ∈ tr, e.ok = true) :
    tr = (tr.map Event.call).map (fun c => ⟨c, true⟩) := by
  induction tr with
  | nil => rfl
  | cons e es ih =>
    have he : e.ok = true := h e (List.mem_cons_self _ _)
    have hes := ih (fun x hx => h x (List.mem_cons_of_mem _ hx))
    obtain ⟨c, ok⟩ := e
    simp only at he
    subst he
    simp only [List.map_cons]
    rw [← hes]

theorem Good.trace_eq {tr : List Event} {plan : List Call}
    (h : Good id tr (.returned none) plan) : tr = plan.map (fun c => ⟨c, true⟩) := by
  have h1 := map_ok_of_all_ok tr (h.all_ok rfl)
  have h2 : tr.map Event.call = plan := h.complete rfl
  rw [h2] at h1
  exact h1

theorem PrometheusUserWorkloadTask.create_kinds {σ : Type} (t : PrometheusUserWorkloadTask σ)
    (s : σ) :
    Good Call.kind (t.create s).trace (.returned (t.create s).val)
      ((createPlan t.factory).map Call.kind) :=
  ((t.create_conforms s).1).map Call.kind

theorem PrometheusUserWorkloadTask.destroy_kinds {σ : Type}
    (t : PrometheusUserWorkloadTask σ) (s : σ) :
    Good Call.kind (t.destroy s).trace (.returned (t.destroy s).val)
      ((destroyPlan t.factory).map Call.kind) :=
  ((t.destroy_conforms s).1).map Call.kind

theorem pairwise_true {α : Type} (l : List α) : l.Pairwise (fun _ _ => True) :=
  List.pairwise_of_forall (fun _ _ => trivial)

/-! ## Fail-fast -/

/-- C1. Fail-fast: in every run of `create`, of `destroy` and of the Thanos querier
`Run`, against any factory and any client, a call that returns an error is the last
call made (no later step, and no remaining item of a Role or RoleBinding list, is
attempted) and the task returns a non-nil error. -/
theorem fail_fast {σ : Type} (t : PrometheusUserWorkloadTask σ) (u : ThanosQuerierTask σ)
    (unmarshal : String → GrafanaDatasources × Option Err) (s : σ) :
    FailFast (t.create s).trace (.returned (t.create s).val) ∧
    FailFast (t.destroy s).trace (.returned (t.destroy s).val) ∧
    FailFast (u.Run unmarshal s).trace (u.Run unmarshal s).val :=
  ⟨(t.create_conforms s).1.failFast, (t.destroy_conforms s).1.failFast,
    (u.Run_follows_plan unmarshal s).1.failFast⟩

/-- The write of the second of two listed Roles fails: it is the thirteenth and
last call, and `create` returns an error. -/
theorem fail_fast_witness :
    ((failingTask .CreateOrUpdateRole "role-b").create ()).trace[12]? =
        some ⟨.client .CreateOrUpdateRole (manifest "role-b"), false⟩ ∧
      ((failingTask .CreateOrUpdateRole "role-b").create ()).trace.length = 12 + 1 ∧
      ∃ err, Outcome.returned ((failingTask .CreateOrUpdateRole "role-b").create ()).val =
        .returned (some err) :=
  ⟨by decide,
    (fail_fast (failingTask .CreateOrUpdateRole "role-b") (thanosTask secretWithoutKey)
      sampleUnmarshal ()).1 12 ⟨.client .CreateOrUpdateRole (manifest "role-b"), false⟩
      (by decide) rfl⟩

/-! ## Error messages -/

/-- C2. In `destroy`, a failure of `DeleteRoleBinding` on the config RoleBinding is
wrapped with the message of the Service step (line 207): the error returned is word
for word the one returned when `DeleteService` fails. -/
theorem destroy_config_rolebinding_message :
    ((failingTask .DeleteRoleBinding "prometheus-user-workload-config").destroy ()).trace.getLast?
        = some ⟨.client .DeleteRoleBinding (manifest "prometheus-user-workload-config"), false⟩ ∧
      ((failingTask .DeleteRoleBinding "prometheus-user-workload-config").destroy ()).val =
        some "deleting UserWorkload Prometheus Service failed: boom" ∧
      ((failingTask .DeleteService "prometheus-user-workload").destroy ()).trace.getLast?
        = some ⟨.client .DeleteService (manifest "prometheus-user-workload"), false⟩ ∧
      ((failingTask .DeleteService "prometheus-user-workload").destroy ()).val =
        some "deleting UserWorkload Prometheus Service failed: boom" := by
  decide

/-! ## The datasource secret -/

/-- C5. With every call succeeding, `Run` of the Thanos querier task panics when
the secret has no key `prometheus.yaml`, when the value under the key does not
decode (the empty value, a text that is not JSON), and when it decodes to an empty
list of datasources: no error is returned. -/
theorem thanos_run_panics_on_bad_secret :
    ((thanosTask secretWithoutKey).Run sampleUnmarshal ()).val = .panicked ∧
      ((thanosTask (secretWith "")).Run sampleUnmarshal ()).val = .panicked ∧
      ((thanosTask (secretWith "datasources: none")).Run sampleUnmarshal ()).val =
        .panicked ∧
      ((thanosTask (secretWith noDatasourceJSON)).Run sampleUnmarshal ()).val =
        .panicked := by
  decide

/-- C6. A run of the Thanos querier task in which every factory call and every
client call succeeds and which does not return nil: the secret has no key
`prometheus.yaml`, eight calls are made, all succeed, and `Run` panics on the empty
list of datasources. -/
theorem thanos_run_not_binary :
    (∀ e ∈ ((thanosTask secretWithoutKey).Run sampleUnmarshal ()).trace, e.ok = true) ∧
      ((thanosTask secretWithoutKey).Run sampleUnmarshal ()).trace.map
          (fun e => e.call.kind) = thanosPlan.take 8 ∧
      ((thanosTask secretWithoutKey).Run sampleUnmarshal ()).val ≠ .returned none := by
  decide

/-- The user workload `Run` returns nil exactly when every call it made succeeded;
in particular `errors.Wrap` on the last step gives nil when the last call
succeeds. -/
theorem PrometheusUserWorkloadTask.Run_binary {σ : Type} (t : PrometheusUserWorkloadTask σ)
    (s : σ) : (t.Run s).val = none ↔ ∀ e ∈ (t.Run s).trace, e.ok = true := by
  have hg := (t.Run_conforms s).1
  constructor
  · intro h
    exact hg.all_ok (by rw [h])
  · intro h
    rcases hg.clean h with h1 | h1
    · exact Outcome.returned.inj h1
    · cases h1

/-- The Thanos querier `Run` returns nil only when every call it made succeeded;
when every call succeeded it returns nil or panics. -/
theorem ThanosQuerierTask.Run_nil_or_panicked {σ : Type} (u : ThanosQuerierTask σ)
    (unmarshal : String → GrafanaDatasources × Option Err) (s : σ) :
    ((u.Run unmarshal s).val = .returned none → ∀ e ∈ (u.Run unmarshal s).trace, e.ok = true) ∧
      ((∀ e ∈ (u.Run unmarshal s).trace, e.ok = true) →
        (u.Run unmarshal s).val = .returned none ∨ (u.Run unmarshal s).val = .panicked) :=
  ⟨fun h => ((u.Run_follows_plan unmarshal s).1).all_ok h,
    fun h => ((u.Run_follows_plan unmarshal s).1).clean h⟩

/-! ## Converge and teardown sequences -/

theorem PrometheusUserWorkloadTask.create_trace {σ : Type} (t : PrometheusUserWorkloadTask σ)
    (s : σ) (h : (t.create s).val = none) :
    (t.create s).trace = (createPlan t.factory).map (fun c => ⟨c, true⟩) := by
  have hg := (t.create_conforms s).1
  rw [h] at hg
  exact hg.trace_eq

theorem PrometheusUserWorkloadTask.destroy_trace {σ : Type}
    (t : PrometheusUserWorkloadTask σ) (s : σ) (h : (t.destroy s).val = none) :
    (t.destroy s).trace = (destroyPlan t.factory).map (fun c => ⟨c, true⟩) := by
  have hg := (t.destroy_conforms s).1
  rw [h] at hg
  exact hg.trace_eq

theorem written_append (a b : List Event) : written (a ++ b) = written a ++ written b := by
  simp [written]

theorem deleted_append (a b : List Event) : deleted (a ++ b) = deleted a ++ deleted b := by
  simp [deleted]

theorem written_map_client (v : Verb) (l : List Obj) :
    written (l.map (fun o => ⟨.client v o, true⟩)) =
      match v.action with
      | .CreateIfAbsent => l.map (Resource.mk v.kind)
      | .CreateOrUpdate => l.map (Resource.mk v.kind)
      | _ => [] := by
  induction l with
  | nil => cases h : v.action <;> simp [written]
  | cons o os ih =>
    have hc : written (⟨.client v o, true⟩ :: os.map (fun o => ⟨.client v o, true⟩)) =
        ((Call.client v o).written).toList ++
          written (os.map (fun o => ⟨.client v o, true⟩)) := by
      cases h : (Call.client v o).written <;> simp [written, h]
    rw [List.map_cons, hc, ih]
    cases h : v.action <;> simp [Call.written, h]

theorem deleted_map_client (v : Verb) (l : List Obj) :
    deleted (l.map (fun o => ⟨.client v o, true⟩)) =
      match v.action with
      | .Delete => l.map (Resource.mk v.kind)
      | _ => [] := by
  induction l with
  | nil => cases h : v.action <;> simp [deleted]
  | cons o os ih =>
    have hc : deleted (⟨.client v o, true⟩ :: os.map (fun o => ⟨.client v o, true⟩)) =
        ((Call.client v o).deleted).toList ++
          deleted (os.map (fun o => ⟨.client v o, true⟩)) := by
      cases h : (Call.client v o).deleted <;> simp [deleted, h]
    rw [List.map_cons, hc, ih]
    cases h : v.action <;> simp [Call.deleted, h]

theorem written_cons (c : Call) (l : List Event) :
    written (⟨c, true⟩ :: l) = c.written.toList ++ written l := by
  cases h : c.written <;> simp [written, h]

theorem deleted_cons (c : Call) (l : List Event) :
    deleted (⟨c, true⟩ :: l) = c.deleted.toList ++ deleted l := by
  cases h : c.deleted <;> simp [deleted, h]

theorem PrometheusUserWorkloadTask.create_written {σ : Type}
    (t : PrometheusUserWorkloadTask σ) (s : σ) (h : (t.create s).val = none) :
    written (t.create s).trace =
      headResources t.factory ++ roleResources t.factory ++
        roleBindingResources t.factory ++ tailResources t.factory := by
  rw [t.create_trace s h]
  simp only [createPlan, List.map_cons, List.map_append, List.map_map, Function.comp_def,
    List.map_nil, written_cons, written_append, written_map_client]
  simp [written, Call.written, Verb.action, Verb.kind, headResources, roleResources,
    roleBindingResources, tailResources]

theorem PrometheusUserWorkloadTask.destroy_deleted {σ : Type}
    (t : PrometheusUserWorkloadTask σ) (s : σ) (h : (t.destroy s).val = none) :
    deleted (t.destroy s).trace =
      (tailResources t.factory).reverse ++ roleBindingResources t.factory ++
        roleResources t.factory ++ (headResources t.factory).reverse := by
  rw [t.destroy_trace s h]
  simp only [destroyPlan, List.map_cons, List.map_append, List.map_map, Function.comp_def,
    List.map_nil, deleted_cons, deleted_append, deleted_map_client]
  simp [deleted, Call.deleted, Verb.action, Verb.kind, headResources, roleResources,
    roleBindingResources, tailResources]

/-- C3, the claim as stated fails: with two Roles in the Role list and an
always-succeeding client, `destroy` does not delete in the exact reverse of the
order in which `create` writes. -/
theorem destroy_not_exact_reverse :
    ((sampleTask true).create ()).val = none ∧
      ((sampleTask true).destroy ()).val = none ∧
      deleted ((sampleTask true).destroy ()).trace ≠
        (written ((sampleTask true).create ()).trace).reverse := by
  decide

/-- C3, amended. When `create` and `destroy` both return nil (any client, one
factory), `create` writes the head resources, the listed Roles, the listed
RoleBindings and the tail resources, and `destroy` deletes the reverse of that
sequence except that the items inside the Role list and inside the RoleBinding list
are deleted in list order, the order in which `create` wrote them. -/
theorem destroy_reverses_blocks {σ : Type} (t : PrometheusUserWorkloadTask σ) (s s' : σ)
    (hc : (t.create s).val = none) (hd : (t.destroy s').val = none) :
    written (t.create s).trace =
        headResources t.factory ++ roleResources t.factory ++
          roleBindingResources t.factory ++ tailResources t.factory ∧
      deleted (t.destroy s').trace =
        (headResources t.factory ++ (roleResources t.factory).reverse ++
          (roleBindingResources t.factory).reverse ++ tailResources t.factory).reverse := by
  refine ⟨t.create_written s hc, ?_⟩
  rw [t.destroy_deleted s' hd]
  simp [List.reverse_append, List.append_assoc]

/-- The sample task: two Roles and two RoleBindings, deleted in list order. -/
theorem destroy_reverses_blocks_witness :
    written ((sampleTask true).create ()).trace =
        headResources sampleFactory ++ roleResources sampleFactory ++
          roleBindingResources sampleFactory ++ tailResources sampleFactory ∧
      deleted ((sampleTask true).destroy ()).trace =
        (headResources sampleFactory ++ (roleResources sampleFactory).reverse ++
          (roleBindingResources sampleFactory).reverse ++ tailResources sampleFactory).reverse :=
  destroy_reverses_blocks (sampleTask true) () () (by decide) (by decide)

/-! ## Disable after enable -/

theorem Store.apply_none {s : Store} {v : Verb} {o : Obj} {id : Ident}
    (hw : (Call.client v o).written = none) (h : s id = none) : (s.apply v o) id = none := by
  unfold Store.apply
  cases ha : v.action with
  | CreateIfAbsent => simp [Call.written, ha] at hw
  | CreateOrUpdate => simp [Call.written, ha] at hw
  | WaitUntilReady => simpa using h
  | Delete =>
    by_cases hid : id = ⟨v.kind, o.Namespace, o.Name⟩
    · subst hid
      simp
    · simp [Function.update, hid, h]

theorem replay_none (tr : List Event) (hnw : ∀ e ∈ tr, e.call.written = none) (s : Store)
    (id : Ident) (h : s id = none) : storeClient.replay tr s id = none := by
  induction tr generalizing s with
  | nil => exact h
  | cons e es ih =>
    have he := hnw e (List.mem_cons_self _ _)
    refine ih (fun x hx => hnw x (List.mem_cons_of_mem _ hx)) (storeClient.step s e.call) ?_
    obtain ⟨c, ok⟩ := e
    cases c with
    | client v o => exact Store.apply_none he h
    | IsEnabled => exact h
    | factory f => exact h
    | SecretsGet ns name => exact h

theorem replay_deleted (tr : List Event) (hnw : ∀ e ∈ tr, e.call.written = none)
    (r : Resource) (hr : r ∈ deleted tr) (s : Store) :
    storeClient.replay tr s r.ident = none := by
  induction tr generalizing s with
  | nil => simp [deleted] at hr
  | cons e es ih =>
    have hes : ∀ x ∈ es, x.call.written = none := fun x hx => hnw x (List.mem_cons_of_mem _ hx)
    by_cases hmem : r ∈ deleted es
    · exact ih hes hmem _
    · have hhead : e.ok = true ∧ e.call.deleted = some r := by
        unfold deleted at hr hmem
        rw [List.filterMap_cons] at hr
        split at hr
        · exact absurd hr hmem
        · rename_i r' hr'
          rcases List.mem_cons.1 hr with rfl | hr
          · by_cases hok : e.ok = true
            · simpa [hok] using hr'
            · simp [hok] at hr'
          · exact absurd hr hmem
      refine replay_none es hes (storeClient.step s e.call) _ ?_
      obtain ⟨c, ok⟩ := e
      cases c with
      | client v o =>
        have hd := hhead.2
        simp only [Call.deleted] at hd
        cases ha : v.action <;> rw [ha] at hd <;> simp at hd
        subst hd
        show (s.apply v o) _ = none
        simp [Store.apply, ha, Resource.ident]
      | IsEnabled => simp [Call.deleted] at hhead
      | factory f => simp [Call.deleted] at hhead
      | SecretsGet ns name => simp [Call.deleted] at hhead

theorem destroyPlan_no_write (F : Factory) : ∀ c ∈ destroyPlan F, c.written = none := by
  intro c hc
  simp only [destroyPlan, List.mem_cons, List.mem_append, List.mem_map, List.mem_singleton,
    List.not_mem_nil, or_false] at hc
  rcases hc with rfl | rfl | rfl | rfl | rfl | rfl | rfl | rfl | rfl | ⟨o, _, rfl⟩ | rfl |
    ⟨o, _, rfl⟩ | rfl | rfl | rfl | rfl | rfl | rfl | rfl | rfl | rfl | rfl <;> rfl

/-- C7. Disable after enable leaves nothing behind: over the idempotent resource
store, when `create` returns nil from a store and `destroy` then returns nil from
the store `create` left, the final store holds none of the resources `create`
wrote; and `destroy` deletes exactly the resources `create` created or updated:
the head resources (CA bundle, ServiceAccount, ClusterRole, ClusterRoleBinding,
config Role), every listed Role, every listed RoleBinding and the tail resources
(config RoleBinding, Service, Prometheus, ServiceMonitor). -/
theorem disable_after_enable (t : PrometheusUserWorkloadTask Store)
    (hcl : t.client = storeClient) (s₀ : Store)
    (hc : (t.create s₀).val = none) (hd : (t.destroy (t.create s₀).state).val = none) :
    (∀ r ∈ written (t.create s₀).trace, (t.destroy (t.create s₀).state).state r.ident = none) ∧
      (∀ r, r ∈ deleted (t.destroy (t.create s₀).state).trace ↔
        r ∈ written (t.create s₀).trace) ∧
      (∀ r, r ∈ written (t.create s₀).trace ↔
        r ∈ headResources t.factory ++ roleResources t.factory ++
          roleBindingResources t.factory ++ tailResources t.factory) := by
  have hw := t.create_written s₀ hc
  have hdel := t.destroy_deleted (t.create s₀).state hd
  have hset : ∀ r, r ∈ deleted (t.destroy (t.create s₀).state).trace ↔
      r ∈ written (t.create s₀).trace := by
    intro r
    rw [hw, hdel]
    simp only [List.mem_append, List.mem_reverse]
    tauto
  refine ⟨?_, hset, fun r => by rw [hw]⟩
  intro r hr
  have hstate := (t.destroy_conforms (t.create s₀).state).2
  rw [hstate, hcl]
  refine replay_deleted _ ?_ r ((hset r).2 hr) _
  intro e he
  rw [t.destroy_trace _ hd] at he
  obtain ⟨c, hcmem, rfl⟩ := List.mem_map.1 he
  exact destroyPlan_no_write t.factory c hcmem

/-- The sample task over the empty store: after `create` and `destroy` the
Prometheus object is absent. -/
theorem disable_after_enable_witness :
    (storeTask.destroy (storeTask.create emptyStore).state).state
        (Resource.ident ⟨.Prometheus, manifest "user-workload"⟩) = none :=
  (disable_after_enable storeTask rfl emptyStore (by decide) (by decide)).1
    ⟨.Prometheus, manifest "user-workload"⟩ (by decide)

/-! ## The enablement flag -/

theorem Good.mem_plan {tr : List Event} {out : Outcome} {plan : List Call}
    (h : Good id tr out plan) : ∀ e ∈ tr, e.call ∈ plan := by
  intro e he
  exact h.pre.subset (List.mem_map.2 ⟨e, he, rfl⟩)

theorem createPlan_mem (F : Factory) (c : Call) (hc : c ∈ createPlan F) :
    (∃ f, c = .factory f) ∨ ∃ v o, c = .client v o ∧ v.action ≠ .Delete := by
  simp only [createPlan, List.mem_cons, List.mem_append, List.mem_map, List.mem_singleton,
    List.not_mem_nil, or_false] at hc
  rcases hc with rfl | rfl | rfl | rfl | rfl | rfl | rfl | rfl | rfl | rfl | rfl |
    ⟨o, _, rfl⟩ | rfl | ⟨o, _, rfl⟩ | rfl | rfl | rfl | rfl | rfl | rfl | rfl | rfl | rfl
  all_goals first
    | exact Or.inl ⟨_, rfl⟩
    | exact Or.inr ⟨_, _, rfl, by decide⟩

theorem destroyPlan_mem (F : Factory) (c : Call) (hc : c ∈ destroyPlan F) :
    (∃ f, c = .factory f) ∨ ∃ v o, c = .client v o ∧ v.action = .Delete := by
  simp only [destroyPlan, List.mem_cons, List.mem_append, List.mem_map, List.mem_singleton,
    List.not_mem_nil, or_false] at hc
  rcases hc with rfl | rfl | rfl | rfl | rfl | rfl | rfl | rfl | rfl | ⟨o, _, rfl⟩ | rfl |
    ⟨o, _, rfl⟩ | rfl | rfl | rfl | rfl | rfl | rfl | rfl | rfl | rfl | rfl
  all_goals first
    | exact Or.inl ⟨_, rfl⟩
    | exact Or.inr ⟨_, _, rfl, by decide⟩

theorem PrometheusUserWorkloadTask.Run_eq {σ : Type} (t : PrometheusUserWorkloadTask σ)
    (s : σ) :
    t.Run s =
      ⟨((if t.userWorkloadConfig.IsEnabled = true then t.create else t.destroy) s).val,
       ⟨.IsEnabled, true⟩ ::
         ((if t.userWorkloadConfig.IsEnabled = true then t.create else t.destroy) s).trace,
       ((if t.userWorkloadConfig.IsEnabled = true then t.create else t.destroy) s).state⟩ :=
  rfl

/-- C4. `Run` reads the enablement flag exactly once.  When the flag is true its
result, calls and final store are those of `create` after the one read, and no call
is a delete; when the flag is false they are those of `destroy`, and every client
call is a delete (so none is a create, an update or a wait). -/
theorem run_dispatch {σ : Type} (t : PrometheusUserWorkloadTask σ) (s : σ) :
    ((t.Run s).trace.map Event.call).count .IsEnabled = 1 ∧
      (t.userWorkloadConfig.IsEnabled = true →
        (t.Run s).val = (t.create s).val ∧
        (t.Run s).trace = ⟨.IsEnabled, true⟩ :: (t.create s).trace ∧
        (t.Run s).state = (t.create s).state ∧
        ∀ e ∈ (t.Run s).trace, ∀ v o, e.call = .client v o → v.action ≠ .Delete) ∧
      (t.userWorkloadConfig.IsEnabled = false →
        (t.Run s).val = (t.destroy s).val ∧
        (t.Run s).trace = ⟨.IsEnabled, true⟩ :: (t.destroy s).trace ∧
        (t.Run s).state = (t.destroy s).state ∧
        ∀ e ∈ (t.Run s).trace, ∀ v o, e.call = .client v o → v.action = .Delete) := by
  have hcr : ∀ e ∈ (t.create s).trace,
      (∃ f, e.call = .factory f) ∨ ∃ v o, e.call = .client v o ∧ v.action ≠ .Delete :=
    fun e he => createPlan_mem _ _ ((t.create_conforms s).1.mem_plan e he)
  have hde : ∀ e ∈ (t.destroy s).trace,
      (∃ f, e.call = .factory f) ∨ ∃ v o, e.call = .client v o ∧ v.action = .Delete :=
    fun e he => destroyPlan_mem _ _ ((t.destroy_conforms s).1.mem_plan e he)
  have hcount : ∀ tr : List Event,
      (∀ e ∈ tr, (∃ f, e.call = .factory f) ∨ ∃ v o, e.call = .client v o ∧ True) →
      ((⟨.IsEnabled, true⟩ :: tr).map Event.call).count .IsEnabled = 1 := by
    intro tr htr
    rw [List.map_cons, List.count_cons_self, List.count_eq_zero_of_not_mem]
    intro hmem
    obtain ⟨e, he, hcall⟩ := List.mem_map.1 hmem
    rcases htr e he with ⟨f, hf⟩ | ⟨v, o, hv, _⟩
    · rw [hf] at hcall
      cases hcall
    · rw [hv] at hcall
      cases hcall
  rw [t.Run_eq s]
  cases hflag : t.userWorkloadConfig.IsEnabled with
  | true =>
    refine ⟨hcount _ (fun e he => (hcr e he).imp id
      (fun ⟨v, o, h, _⟩ => ⟨v, o, h, trivial⟩)), fun _ => ⟨rfl, rfl, rfl, ?_⟩, fun h => by cases h⟩
    intro e he v o hcall
    rcases List.mem_cons.1 he with rfl | he
    · cases hcall
    · rcases hcr e he with ⟨f, hf⟩ | ⟨v', o', hv, hne⟩
      · rw [hf] at hcall
        cases hcall
      · rw [hv] at hcall
        cases hcall
        exact hne
  | false =>
    refine ⟨hcount _ (fun e he => (hde e he).imp id
      (fun ⟨v, o, h, _⟩ => ⟨v, o, h, trivial⟩)), fun h => (by cases h), fun _ => ⟨rfl, rfl, rfl, ?_⟩⟩
    intro e he v o hcall
    rcases List.mem_cons.1 he with rfl | he
    · cases hcall
    · rcases hde e he with ⟨f, hf⟩ | ⟨v', o', hv, hact⟩
      · rw [hf] at hcall
        cases hcall
      · rw [hv] at hcall
        cases hcall
        exact hact

/-- The sample task, enabled: `Run` returns what `create` returns, after one read of
the flag. -/
theorem run_dispatch_witness :
    ((sampleTask true).Run ()).val = ((sampleTask true).create ()).val ∧
      ((sampleTask true).Run ()).trace =
        ⟨.IsEnabled, true⟩ :: ((sampleTask true).create ()).trace :=
  ⟨((run_dispatch (sampleTask true) ()).2.1 rfl).1,
    ((run_dispatch (sampleTask true) ()).2.1 rfl).2.1⟩

/-! ## Ordering -/

theorem createPlan_pairwise (F : Factory) (a b : Verb)
    (h : (a, b) ∈ [(Verb.CreateOrUpdateServiceAccount, Verb.CreateOrUpdateClusterRoleBinding),
      (.CreateOrUpdateClusterRole, .CreateOrUpdateClusterRoleBinding),
      (.CreateOrUpdateRole, .CreateOrUpdateRoleBinding),
      (.CreateOrUpdatePrometheus, .WaitForPrometheus),
      (.WaitForPrometheus, .CreateOrUpdateServiceMonitor)]) :
    ((createPlan F).map Call.kind).Pairwise
      (fun x y => ¬(x = .client b ∧ y = .client a)) := by
  simp only [List.mem_cons, Prod.mk.injEq, List.mem_singleton, List.not_mem_nil, or_false] at h
  rcases h with ⟨rfl, rfl⟩ | ⟨rfl, rfl⟩ | ⟨rfl, rfl⟩ | ⟨rfl, rfl⟩ | ⟨rfl, rfl⟩ <;>
    simp [createPlan, Call.kind, List.pairwise_append, List.pairwise_map, pairwise_true] <;>
    aesop

theorem createPlan_pairwise_monitor (F : Factory) :
    ((createPlan F).map Call.kind).Pairwise
      (fun x y => ¬(x = .factory .PrometheusUserWorkloadPrometheusServiceMonitor ∧
        y = .client .WaitForPrometheus)) := by
  simp [createPlan, Call.kind, List.pairwise_append, List.pairwise_map, pairwise_true]

theorem destroyPlan_pairwise (F : Factory) (a b : Verb)
    (h : (a, b) ∈ [(Verb.DeleteClusterRoleBinding, Verb.DeleteServiceAccount),
      (.DeleteClusterRoleBinding, .DeleteClusterRole),
      (.DeleteRoleBinding, .DeleteRole)]) :
    ((destroyPlan F).map Call.kind).Pairwise
      (fun x y => ¬(x = .client b ∧ y = .client a)) := by
  simp only [List.mem_cons, Prod.mk.injEq, List.mem_singleton, List.not_mem_nil, or_false] at h
  rcases h with ⟨rfl, rfl⟩ | ⟨rfl, rfl⟩ | ⟨rfl, rfl⟩ <;>
    simp [destroyPlan, Call.kind, List.pairwise_append, List.pairwise_map, pairwise_true]

theorem createPlan_kind_mem (F : Factory) (v : Verb)
    (h : v ∈ [Verb.CreateOrUpdateServiceAccount, .CreateOrUpdateClusterRole,
      .CreateOrUpdateRole, .CreateOrUpdatePrometheus, .WaitForPrometheus]) :
    CallKind.client v ∈ (createPlan F).map Call.kind := by
  simp only [List.mem_cons, List.mem_singleton, List.not_mem_nil, or_false] at h
  rcases h with rfl | rfl | rfl | rfl | rfl <;> simp [createPlan, Call.kind]

theorem destroyPlan_kind_mem (F : Factory) (v : Verb)
    (h : v ∈ [Verb.DeleteClusterRoleBinding, .DeleteRoleBinding]) :
    CallKind.client v ∈ (destroyPlan F).map Call.kind := by
  simp only [List.mem_cons, List.mem_singleton, List.not_mem_nil, or_false] at h
  rcases h with rfl | rfl <;> simp [destroyPlan, Call.kind]

theorem pairwise_calls_of_kinds {plan : List Call} {a b : Verb} (o : Obj)
    (h : (plan.map Call.kind).Pairwise (fun x y => ¬(x = .client b ∧ y = .client a))) :
    plan.Pairwise (fun x y => ¬(x.kind = .client b ∧ y = .client a o)) := by
  rw [List.pairwise_map] at h
  exact h.imp (fun hxy hand => hxy ⟨hand.1, by rw [hand.2]; rfl⟩)

theorem thanosCalls_kinds (F : Factory) (ns : String) (hs : Obj) :
    (thanosCalls F ns hs).map Call.kind = thanosPlan := rfl

theorem createPlan_role_mem (F : Factory) (r : Obj)
    (hr : r ∈ built F.PrometheusUserWorkloadRoleConfig ::
      built F.PrometheusUserWorkloadRoleList) :
    Call.client .CreateOrUpdateRole r ∈ createPlan F := by
  rcases List.mem_cons.1 hr with rfl | hr
  · simp [createPlan]
  · simp [createPlan, hr]

theorem destroyPlan_rolebinding_mem (F : Factory) (rb : Obj)
    (hrb : rb ∈ built F.PrometheusUserWorkloadRoleBindingConfig ::
      built F.PrometheusUserWorkloadRoleBindingList) :
    Call.client .DeleteRoleBinding rb ∈ destroyPlan F := by
  rcases List.mem_cons.1 hrb with rfl | hrb
  · simp [destroyPlan]
  · simp [destroyPlan, hrb]

/-- C8. Ordering invariant, in every run against any factory and client.
By kind of step: in `create` and in the Thanos querier `Run` every ServiceAccount
step and every ClusterRole step has a strictly smaller index than every
ClusterRoleBinding step, and in `create` every Role step has a strictly smaller
index than every RoleBinding step; in `destroy` every delete of a
ClusterRoleBinding, respectively RoleBinding, has a strictly smaller index than every
delete of a ServiceAccount, ClusterRole, respectively Role.
By object: in `create` and in the Thanos querier `Run` a ClusterRoleBinding step is
only made after the ServiceAccount the factory built and the ClusterRole the factory
built were written with success; in `create` a RoleBinding step (listed or config)
is only made after the config Role and each listed Role were written with success;
in `destroy` a ServiceAccount or ClusterRole is only deleted after the
ClusterRoleBinding was deleted with success, and a Role (listed or config) is only
deleted after the config RoleBinding and each listed RoleBinding were deleted with
success.  A run that returns nil makes every call of its plan. -/
theorem ordering_invariant {σ : Type} (t : PrometheusUserWorkloadTask σ)
    (u : ThanosQuerierTask σ) (unmarshal : String → GrafanaDatasources × Option Err) (s : σ) :
    (DependsOn (.client .CreateOrUpdateClusterRoleBinding)
        (.client .CreateOrUpdateServiceAccount) (t.create s).trace ∧
      DependsOn (.client .CreateOrUpdateClusterRoleBinding)
        (.client .CreateOrUpdateClusterRole) (t.create s).trace ∧
      DependsOn (.client .CreateOrUpdateRoleBinding)
        (.client .CreateOrUpdateRole) (t.create s).trace) ∧
    (DependsOn (.client .CreateOrUpdateClusterRoleBinding)
        (.client .CreateOrUpdateServiceAccount) (u.Run unmarshal s).trace ∧
      DependsOn (.client .CreateOrUpdateClusterRoleBinding)
        (.client .CreateOrUpdateClusterRole) (u.Run unmarshal s).trace) ∧
    (DependsOn (.client .DeleteServiceAccount)
        (.client .DeleteClusterRoleBinding) (t.destroy s).trace ∧
      DependsOn (.client .DeleteClusterRole)
        (.client .DeleteClusterRoleBinding) (t.destroy s).trace ∧
      DependsOn (.client .DeleteRole)
        (.client .DeleteRoleBinding) (t.destroy s).trace) ∧
    (After .CreateOrUpdateClusterRoleBinding
        (.client .CreateOrUpdateServiceAccount
          (built t.factory.PrometheusUserWorkloadServiceAccount)) (t.create s).trace ∧
      After .CreateOrUpdateClusterRoleBinding
        (.client .CreateOrUpdateClusterRole
          (built t.factory.PrometheusUserWorkloadClusterRole)) (t.create s).trace ∧
      (∀ r ∈ built t.factory.PrometheusUserWorkloadRoleConfig ::
          built t.factory.PrometheusUserWorkloadRoleList,
        After .CreateOrUpdateRoleBinding (.client .CreateOrUpdateRole r) (t.create s).trace) ∧
      ((t.create s).val = none →
        (t.create s).trace = (createPlan t.factory).map (fun c => ⟨c, true⟩))) ∧
    (After .CreateOrUpdateClusterRoleBinding
        (.client .CreateOrUpdateServiceAccount (built u.factory.ThanosQuerierServiceAccount))
        (u.Run unmarshal s).trace ∧
      After .CreateOrUpdateClusterRoleBinding
        (.client .CreateOrUpdateClusterRole (built u.factory.ThanosQuerierClusterRole))
        (u.Run unmarshal s).trace) ∧
    (After .DeleteServiceAccount
        (.client .DeleteClusterRoleBinding
          (built t.factory.PrometheusUserWorkloadClusterRoleBinding)) (t.destroy s).trace ∧
      After .DeleteClusterRole
        (.client .DeleteClusterRoleBinding
          (built t.factory.PrometheusUserWorkloadClusterRoleBinding)) (t.destroy s).trace ∧
      (∀ rb ∈ built t.factory.PrometheusUserWorkloadRoleBindingConfig ::
          built t.factory.PrometheusUserWorkloadRoleBindingList,
        After .DeleteRole (.client .DeleteRoleBinding rb) (t.destroy s).trace) ∧
      ((t.destroy s).val = none →
        (t.destroy s).trace = (destroyPlan t.factory).map (fun c => ⟨c, true⟩))) := by
  have hc := t.create_kinds s
  have hd := t.destroy_kinds s
  have hu : Good Call.kind (u.Run unmarshal s).trace (u.Run unmarshal s).val thanosPlan :=
    (u.Run_follows_plan unmarshal s).1
  have hco := (t.create_conforms s).1
  have hdo := (t.destroy_conforms s).1
  obtain ⟨sec, huo, -, -⟩ := u.Run_follows_calls unmarshal s
  have huo' : Good id (u.Run unmarshal s).trace (u.Run unmarshal s).val
      (thanosCalls u.factory u.client.Namespace
        (built (u.factory.ThanosQuerierHtpasswdSecret (firstPassword unmarshal sec)))) := huo
  refine ⟨⟨?_, ?_, ?_⟩, ⟨?_, ?_⟩, ⟨?_, ?_, ?_⟩, ⟨?_, ?_, ?_, ?_⟩, ⟨?_, ?_⟩, ⟨?_, ?_, ?_, ?_⟩⟩
  · exact hc.dependsOn (by decide) (createPlan_pairwise _ _ _ (by decide))
      (createPlan_kind_mem _ _ (by decide))
  · exact hc.dependsOn (by decide) (createPlan_pairwise _ _ _ (by decide))
      (createPlan_kind_mem _ _ (by decide))
  · exact hc.dependsOn (by decide) (createPlan_pairwise _ _ _ (by decide))
      (createPlan_kind_mem _ _ (by decide))
  · exact hu.dependsOn (by decide) (by decide) (by decide)
  · exact hu.dependsOn (by decide) (by decide) (by decide)
  · exact hd.dependsOn (by decide) (destroyPlan_pairwise _ _ _ (by decide))
      (destroyPlan_kind_mem _ _ (by decide))
  · exact hd.dependsOn (by decide) (destroyPlan_pairwise _ _ _ (by decide))
      (destroyPlan_kind_mem _ _ (by decide))
  · exact hd.dependsOn (by decide) (destroyPlan_pairwise _ _ _ (by decide))
      (destroyPlan_kind_mem _ _ (by decide))
  · exact hco.after (by simp [createPlan]) (by simp [Call.kind])
      (pairwise_calls_of_kinds _ (createPlan_pairwise _ _ _ (by decide)))
  · exact hco.after (by simp [createPlan]) (by simp [Call.kind])
      (pairwise_calls_of_kinds _ (createPlan_pairwise _ _ _ (by decide)))
  · intro r hr
    exact hco.after (createPlan_role_mem _ r hr) (by simp [Call.kind])
      (pairwise_calls_of_kinds _ (createPlan_pairwise _ _ _ (by decide)))
  · exact t.create_trace s
  · refine huo'.after (by simp [thanosCalls]) (by simp [Call.kind])
      (pairwise_calls_of_kinds _ ?_)
    rw [thanosCalls_kinds]
    decide
  · refine huo'.after (by simp [thanosCalls]) (by simp [Call.kind])
      (pairwise_calls_of_kinds _ ?_)
    rw [thanosCalls_kinds]
    decide
  · exact hdo.after (by simp [destroyPlan]) (by simp [Call.kind])
      (pairwise_calls_of_kinds _ (destroyPlan_pairwise _ _ _ (by decide)))
  · exact hdo.after (by simp [destroyPlan]) (by simp [Call.kind])
      (pairwise_calls_of_kinds _ (destroyPlan_pairwise _ _ _ (by decide)))
  · intro rb hrb
    exact hdo.after (destroyPlan_rolebinding_mem _ rb hrb) (by simp [Call.kind])
      (pairwise_calls_of_kinds _ (destroyPlan_pairwise _ _ _ (by decide)))
  · exact t.destroy_trace s

/-- The sample task: the first listed RoleBinding is written at index 14 of
`create`, after the second listed Role was written with success. -/
theorem ordering_invariant_witness :
    ∃ (i : Nat), i < 14 ∧ ((sampleTask true).create ()).trace[i]? =
      some ⟨.client .CreateOrUpdateRole (manifest "role-b"), true⟩ :=
  (ordering_invariant (sampleTask true) (thanosTask secretWithoutKey) sampleUnmarshal
    ()).2.2.2.1.2.2.1 (manifest "role-b") (by decide) 14
    ⟨.client .CreateOrUpdateRoleBinding (manifest "binding-a"), true⟩ (by decide) rfl

/-! ## Readiness before the monitor -/

theorem createPlan_prometheus (F : Factory) (c : Call) (hc : c ∈ createPlan F) :
    (c.kind = .client .CreateOrUpdatePrometheus →
        c = .client .CreateOrUpdatePrometheus (built F.PrometheusUserWorkload)) ∧
      (c.kind = .client .WaitForPrometheus →
        c = .client .WaitForPrometheus (built F.PrometheusUserWorkload)) := by
  simp only [createPlan, List.mem_cons, List.mem_append, List.mem_map, List.mem_singleton,
    List.not_mem_nil, or_false] at hc
  rcases hc with rfl | rfl | rfl | rfl | rfl | rfl | rfl | rfl | rfl | rfl | rfl |
    ⟨o, _, rfl⟩ | rfl | ⟨o, _, rfl⟩ | rfl | rfl | rfl | rfl | rfl | rfl | rfl | rfl | rfl
  all_goals refine ⟨fun h => ?_, fun h => ?_⟩
  all_goals first
    | rfl
    | exact absurd h (by simp [Call.kind])

/-- C9. Readiness before hook, in every run of `create` against any factory and
client.  Whenever `CreateOrUpdateServiceMonitor` is called, `CreateOrUpdatePrometheus`
and then `WaitForPrometheus` were called earlier, on one and the same Prometheus
object, and both returned success.  If a `WaitForPrometheus` call fails, the
ServiceMonitor is neither built by the factory nor created. -/
theorem readiness_before_hook {σ : Type} (t : PrometheusUserWorkloadTask σ) (s : σ) :
    (∀ (j : Nat) (e : Event) (o : Obj), (t.create s).trace[j]? = some e →
        e.call = .client .CreateOrUpdateServiceMonitor o →
        ∃ (p : Obj) (i₁ i₂ : Nat), i₁ < i₂ ∧ i₂ < j ∧
          (t.create s).trace[i₁]? = some ⟨.client .CreateOrUpdatePrometheus p, true⟩ ∧
          (t.create s).trace[i₂]? = some ⟨.client .WaitForPrometheus p, true⟩) ∧
      (∀ e ∈ (t.create s).trace, e.call.kind = .client .WaitForPrometheus → e.ok = false →
        ∀ e' ∈ (t.create s).trace,
          e'.call.kind ≠ .factory .PrometheusUserWorkloadPrometheusServiceMonitor ∧
          e'.call.kind ≠ .client .CreateOrUpdateServiceMonitor) := by
  have hk := t.create_kinds s
  have hm := (t.create_conforms s).1.mem_plan
  constructor
  · intro j e o hj hcall
    have hN1 : Needs (.client .CreateOrUpdateServiceMonitor) (.client .WaitForPrometheus)
        (t.create s).trace :=
      hk.needs (by decide) (createPlan_pairwise _ _ _ (by decide))
        (createPlan_kind_mem _ _ (by decide))
    have hN2 : Needs (.client .WaitForPrometheus) (.client .CreateOrUpdatePrometheus)
        (t.create s).trace :=
      hk.needs (by decide) (createPlan_pairwise _ _ _ (by decide))
        (createPlan_kind_mem _ _ (by decide))
    obtain ⟨i₂, e₂, h2lt, h2, h2k, h2ok⟩ := hN1 j e hj (by rw [hcall]; rfl)
    obtain ⟨i₁, e₁, h1lt, h1, h1k, h1ok⟩ := hN2 i₂ e₂ h2 h2k
    have he₁ := (createPlan_prometheus _ _
      (hm e₁ (List.mem_iff_getElem?.2 ⟨i₁, h1⟩))).1 h1k
    have he₂ := (createPlan_prometheus _ _
      (hm e₂ (List.mem_iff_getElem?.2 ⟨i₂, h2⟩))).2 h2k
    refine ⟨built t.factory.PrometheusUserWorkload, i₁, i₂, h1lt, h2lt, ?_, ?_⟩
    · rw [h1, ← he₁, ← h1ok]
    · rw [h2, ← he₂, ← h2ok]
  · intro e he hkind hf e' he'
    obtain ⟨k, hk'⟩ := List.mem_iff_getElem?.1 he
    obtain ⟨j, hj⟩ := List.mem_iff_getElem?.1 he'
    have hlen := ((t.create_conforms s).1.failFast k e hk' hf).1
    have hjlen : j < (t.create s).trace.length := (List.getElem?_eq_some.1 hj).1
    have hB1 : Before (.client .WaitForPrometheus)
        (.factory .PrometheusUserWorkloadPrometheusServiceMonitor) (t.create s).trace :=
      hk.before (by decide) (createPlan_pairwise_monitor _)
    have hB2 : Before (.client .WaitForPrometheus) (.client .CreateOrUpdateServiceMonitor)
        (t.create s).trace :=
      hk.before (by decide) (createPlan_pairwise _ _ _ (by decide))
    constructor
    · intro h1
      have := hB1 k j e e' hk' hj hkind h1
      omega
    · intro h2
      have := hB2 k j e e' hk' hj hkind h2
      omega

/-- The sample task: the ServiceMonitor step at index 24 of `create` comes after the
Prometheus object was written and waited for. -/
theorem readiness_before_hook_witness :
    ∃ (p : Obj) (i₁ i₂ : Nat), i₁ < i₂ ∧ i₂ < 24 ∧
      ((sampleTask true).create ()).trace[i₁]? =
        some ⟨.client .CreateOrUpdatePrometheus p, true⟩ ∧
      ((sampleTask true).create ()).trace[i₂]? =
        some ⟨.client .WaitForPrometheus p, true⟩ :=
  (readiness_before_hook (sampleTask true) ()).1 24
    ⟨.client .CreateOrUpdateServiceMonitor (manifest "prometheus-user-workload"), true⟩
    (manifest "prometheus-user-workload") (by decide) rfl

/-! ## The canonical order -/

theorem createPlan_canonical (F : Factory) :
    ((createPlan F).map (fun c => c.kind.phase.rank)).Pairwise (· ≤ ·) := by
  simp [createPlan, Call.kind, List.pairwise_append, List.pairwise_map, pairwise_true,
    CallKind.phase, FactoryFn.phase, Verb.kind, Kind.phase, Phase.rank]
  aesop

/-- C10, the claim as stated fails for the Thanos querier task.  The secret holds
valid JSON with one datasource, `Run` returns nil, and the phases are not in the
canonical order: the Service step (index 1) comes before the ServiceAccount step
(index 13) and the ClusterRoleBinding step (index 17), the Deployment step is the
last call, and no call waits for the workload. -/
theorem thanos_run_not_canonical :
    ((thanosTask (secretWith oneDatasourceJSON)).Run sampleUnmarshal ()).val =
        .returned none ∧
      ¬ Canonical ((thanosTask (secretWith oneDatasourceJSON)).Run sampleUnmarshal ()).trace ∧
      ((thanosTask (secretWith oneDatasourceJSON)).Run sampleUnmarshal ()).trace[1]? =
        some ⟨.client .CreateOrUpdateService (manifest "thanos-querier"), true⟩ ∧
      ((thanosTask (secretWith oneDatasourceJSON)).Run sampleUnmarshal ()).trace[9]? =
        some ⟨.client .CreateIfNotExistSecret
          ⟨"openshift-monitoring", "thanos-querier-oauth-htpasswd", "secret"⟩, true⟩ ∧
      ((thanosTask (secretWith oneDatasourceJSON)).Run sampleUnmarshal ()).trace[13]? =
        some ⟨.client .CreateOrUpdateServiceAccount (manifest "thanos-querier"), true⟩ ∧
      ((thanosTask (secretWith oneDatasourceJSON)).Run sampleUnmarshal ()).trace[17]? =
        some ⟨.client .CreateOrUpdateClusterRoleBinding (manifest "thanos-querier"), true⟩ ∧
      ((thanosTask (secretWith oneDatasourceJSON)).Run sampleUnmarshal ()).trace.getLast? =
        some ⟨.client .CreateOrUpdateDeployment (manifest "thanos-querier"), true⟩ ∧
      ∀ e ∈ ((thanosTask (secretWith oneDatasourceJSON)).Run sampleUnmarshal ()).trace,
        e.call.kind.phase ≠ .ready := by
  decide

/-- C10, amended. In every run of `create` the phases of the calls are in the
canonical order (trust material, ServiceAccount, authorization, Service, workload,
wait, monitor), the wait is only made after the workload was written, and a run that
returns nil makes every call of the plan, in which the wait follows the write of the
workload.  In every run of the Thanos querier `Run` the calls are a beginning of its
own plan, all of it when `Run` returns nil: the Service, the Route and a wait for
the route, the OAuth cookie secret, the read of the grafana-datasources secret, the
htpasswd secret that the factory builds from the first password decoded from the
secret read, the RBAC proxy secret, then ServiceAccount, ClusterRole and
ClusterRoleBinding, then the Deployment, each call on the object the factory built
for it; no call waits for the workload. -/
theorem canonical_converge_order {σ : Type} (t : PrometheusUserWorkloadTask σ)
    (u : ThanosQuerierTask σ) (unmarshal : String → GrafanaDatasources × Option Err) (s : σ) :
    (Canonical (t.create s).trace ∧
      DependsOn (.client .WaitForPrometheus) (.client .CreateOrUpdatePrometheus)
        (t.create s).trace ∧
      ((t.create s).val = none → (t.create s).trace.map Event.call = createPlan t.factory)) ∧
    ((u.Run unmarshal s).trace.map (fun e => e.call.kind) <+: thanosPlan ∧
      ((u.Run unmarshal s).val = .returned none →
        (u.Run unmarshal s).trace.map (fun e => e.call.kind) = thanosPlan) ∧
      ∀ e ∈ (u.Run unmarshal s).trace, e.call.kind.phase ≠ .ready) ∧
    (∃ sec : Secret,
      (u.Run unmarshal s).trace.map Event.call <+:
        thanosCallsOf unmarshal u.factory u.client.Namespace sec ∧
      ((u.Run unmarshal s).val = .returned none →
        (u.Run unmarshal s).trace.map Event.call =
          thanosCallsOf unmarshal u.factory u.client.Namespace sec) ∧
      ∀ x, u.client.secretRead (u.Run unmarshal s).trace s = some x → x = sec) := by
  have hc := (t.create_conforms s).1
  have hu : Good Call.kind (u.Run unmarshal s).trace (u.Run unmarshal s).val thanosPlan :=
    (u.Run_follows_plan unmarshal s).1
  obtain ⟨sec, huo, -, hsec⟩ := u.Run_follows_calls unmarshal s
  refine ⟨⟨?_, ?_, ?_⟩, ⟨hu.pre, hu.complete, ?_⟩, ⟨sec, huo.pre, huo.complete, hsec⟩⟩
  · exact (createPlan_canonical t.factory).sublist
      (hc.map (fun c => c.kind.phase.rank)).pre.sublist
  · exact (t.create_kinds s).dependsOn (by decide) (createPlan_pairwise _ _ _ (by decide))
      (createPlan_kind_mem _ _ (by decide))
  · intro h
    rw [t.create_trace s h]
    simp [List.map_map, Function.comp_def]
  · intro e he
    have hmem : e.call.kind ∈ thanosPlan := hu.pre.subset (List.mem_map.2 ⟨e, he, rfl⟩)
    revert hmem
    generalize e.call.kind = k
    revert k
    decide

/-- The sample task: `create` returns nil and makes exactly the calls of its plan. -/
theorem canonical_converge_order_witness :
    ((sampleTask true).create ()).trace.map Event.call = createPlan sampleFactory :=
  (canonical_converge_order (sampleTask true) (thanosTask secretWithoutKey) sampleUnmarshal
    ()).1.2.2 (by decide)

end Tasks
